import Mathlib

set_option maxRecDepth 100000

/-!
Shallow embedding of the OPFS SyncAccessHandle pool VFS from
`ext/wasm/api/sqlite3-vfs-opfs-sahpool.js`.

Modelling conventions:

* Bytes are `Nat` values below 256; file contents and the shared header
  scratch buffer `apBody` are `List Nat`.
* Client paths are modelled as their UTF-8 byte sequences (`List Nat`),
  i.e. the result of `textEncoder.encodeInto` on the JS string; the URL
  normalisation performed by `getPath` is outside the model (paths are
  taken already normalised).
* A `SyncAccessHandle` is identified with the opaque (randomly generated)
  OPFS file name that backs it; opaque names are `Nat`s drawn from a
  counter (`getRandomName` is modelled as a fresh-name supply, the only
  idealisation being that random names never collide).
* JS `Map`/`Set` (insertion ordered) become association lists / lists with
  `set` = replace-in-place-or-append, `delete` = remove, matching the
  iteration-order semantics the source relies on.
* JS numbers are IEEE-754 binary64 doubles.  Every numeric value that
  occurs in `computeDigest` is a nonnegative integer (the inputs are
  integers and rounding an integer-valued double keeps it an integer), so
  the double arithmetic is modelled exactly on `Option Nat`: `some n` is
  the double with exact integer value `n`, `none` is `Infinity`.
  `jsFloat` below is correct rounding (round-to-nearest, ties-to-even) of
  an exact nonnegative integer to binary64, with overflow to `Infinity`.
-/

/-! ### VFS constants, from the head of the source file -/

def SECTOR_SIZE : Nat := 4096

def HEADER_MAX_PATH_SIZE : Nat := 512

def HEADER_FLAGS_SIZE : Nat := 4

def HEADER_DIGEST_SIZE : Nat := 8

def HEADER_CORPUS_SIZE : Nat := HEADER_MAX_PATH_SIZE + HEADER_FLAGS_SIZE

def HEADER_OFFSET_FLAGS : Nat := HEADER_MAX_PATH_SIZE

def HEADER_OFFSET_DIGEST : Nat := HEADER_CORPUS_SIZE

def HEADER_OFFSET_DATA : Nat := SECTOR_SIZE

def SQLITE_OPEN_CREATE : Nat := 4

def SQLITE_OPEN_DELETEONCLOSE : Nat := 8

def SQLITE_OPEN_MAIN_DB : Nat := 256

def SQLITE_OPEN_MAIN_JOURNAL : Nat := 2048

def SQLITE_OPEN_SUPER_JOURNAL : Nat := 16384

def SQLITE_OPEN_WAL : Nat := 524288

/-- Bitmask of file types which may persist across sessions. -/
def PERSISTENT_FILE_TYPES : Nat :=
  SQLITE_OPEN_MAIN_DB ||| SQLITE_OPEN_MAIN_JOURNAL |||
  SQLITE_OPEN_SUPER_JOURNAL ||| SQLITE_OPEN_WAL

def SQLITE_OK : Nat := 0

def SQLITE_IOERR : Nat := 10

/-- SQLITE_IOERR | (2 << 8). -/
def SQLITE_IOERR_SHORT_READ : Nat := 522

/-! ### JS Map / Set operations on insertion-ordered association lists -/

/-- JS `Map.get`. -/
def jsGet {α β : Type} [DecidableEq α] : List (α × β) → α → Option β
  | [], _ => none
  | (k0, v0) :: rest, k => if k0 = k then some v0 else jsGet rest k

/-- JS `Map.set`: replace the value in place if the key is present
(keeping its position in iteration order), else append. -/
def jsSet {α β : Type} [DecidableEq α] : List (α × β) → α → β → List (α × β)
  | [], k, v => [(k, v)]
  | (k0, v0) :: rest, k, v =>
    if k0 = k then (k0, v) :: rest else (k0, v0) :: jsSet rest k v

/-- JS `Map.delete`. -/
def jsDelete {α β : Type} [DecidableEq α] : List (α × β) → α → List (α × β)
  | [], _ => []
  | (k0, v0) :: rest, k => if k0 = k then rest else (k0, v0) :: jsDelete rest k

/-- JS `Set.add`: append if not already present. -/
def jsSetAdd {α : Type} [DecidableEq α] (l : List α) (a : α) : List α :=
  if a ∈ l then l else l ++ [a]

/-! ### Byte-level helpers: files and 32-bit fields -/

/-- `FileSystemSyncAccessHandle.read(dest, at)`: copies
`min (dest.length) (max (size - pos) 0)` bytes starting at `pos` into the
front of `dest`, leaves the rest of `dest` untouched, and returns the
number of bytes read together with the updated destination buffer. -/
def fileRead (data : List Nat) (pos : Nat) (dest : List Nat) : Nat × List Nat :=
  let cnt := min dest.length (data.length - pos)
  (cnt, (data.drop pos).take cnt ++ dest.drop cnt)

/-- `FileSystemSyncAccessHandle.write(src, at)`: extends the file with zero
bytes up to `pos` if needed, then overlays `src`. -/
def fileWrite (data : List Nat) (pos : Nat) (src : List Nat) : List Nat :=
  data.take pos ++ List.replicate (pos - data.length) 0 ++ src ++
    data.drop (pos + src.length)

/-- `FileSystemSyncAccessHandle.truncate(sz)`: cut or zero-extend to `sz`. -/
def fileTruncate (data : List Nat) (sz : Nat) : List Nat :=
  data.take sz ++ List.replicate (sz - data.length) 0

/-- `DataView.getUint32` (big-endian, the DataView default used for the
flags field); missing bytes read as 0. -/
def getU32BE (l : List Nat) (off : Nat) : Nat :=
  l.getD off 0 * 16777216 + l.getD (off + 1) 0 * 65536 +
    l.getD (off + 2) 0 * 256 + l.getD (off + 3) 0

/-- `DataView.setUint32` (big-endian): stores `v` modulo 2^32 as four bytes. -/
def setU32BE (l : List Nat) (off v : Nat) : List Nat :=
  l.take off ++
    [v / 16777216 % 256, v / 65536 % 256, v / 256 % 256, v % 256] ++
    l.drop (off + 4)

/-- Little-endian bytes of a 32-bit word, as laid down in the file when a
`Uint32Array` is passed to `write` (and read back by `read`). -/
def le32 (v : Nat) : List Nat :=
  [v % 256, v / 256 % 256, v / 65536 % 256, v / 16777216 % 256]

/-- Reads a 32-bit word from four little-endian bytes. -/
def getU32LE (l : List Nat) (off : Nat) : Nat :=
  l.getD off 0 + l.getD (off + 1) 0 * 256 +
    l.getD (off + 2) 0 * 65536 + l.getD (off + 3) 0 * 16777216

/-! ### Exact model of the JS double arithmetic in `computeDigest`

The source computes `h1 = 31 * h1 + (v * 307)` on plain JS numbers, with a
single `>>> 0` applied after the loop.  All values involved are
nonnegative integers, so binary64 arithmetic is modelled exactly:
`some n` is the double with integer value `n`, `none` is `Infinity`. -/

/-- `2 ^ 53`, the first integer at which binary64 loses integer precision. -/
def FLOAT_EXACT_LIMIT : Nat := 2 ^ 53

/-- The largest finite binary64 value, `(2 ^ 53 - 1) * 2 ^ 971`. -/
def MAX_FINITE_DOUBLE : Nat := 2 ^ 1024 - 2 ^ 971

/-- Scale factor `2 ^ k` (as a number, not an exponent) by which an integer
exceeds 53 significant bits; equivalently the ulp of its binade.  Fuel-based
(each step divides by at least 2, with big jumps so reduction stays
shallow); 1100 fuel covers every input below `2 ^ 1153`, far beyond
anything `computeDigest` produces. -/
def ulpScale : Nat → Nat → Nat
  | 0, _ => 1
  | fuel + 1, n =>
    if n < FLOAT_EXACT_LIMIT then 1
    else if FLOAT_EXACT_LIMIT * 2 ^ 512 ≤ n then ulpScale fuel (n / 2 ^ 512) * 2 ^ 512
    else if FLOAT_EXACT_LIMIT * 2 ^ 64 ≤ n then ulpScale fuel (n / 2 ^ 64) * 2 ^ 64
    else ulpScale fuel (n / 2) * 2

/-- The significand (in units of the ulp `p`) nearest to `n / p`,
ties-to-even: round `n` down to `n / p` ulps unless the remainder exceeds
half an ulp, or equals half an ulp with an odd quotient. -/
def roundQ (n p : Nat) : Nat :=
  if p < 2 * (n % p) ∨ (2 * (n % p) = p ∧ (n / p) % 2 = 1) then n / p + 1
  else n / p

/-- Correct rounding (round-to-nearest, ties-to-even) of the exact integer
`n` to a binary64 value: `none` is `Infinity` (overflow past
`MAX_FINITE_DOUBLE`). -/
def jsFloat (n : Nat) : Option Nat :=
  if n < FLOAT_EXACT_LIMIT then some n
  else if MAX_FINITE_DOUBLE < roundQ n (ulpScale 1100 n) * ulpScale 1100 n then none
  else some (roundQ n (ulpScale 1100 n) * ulpScale 1100 n)

/-- One step of the digest loop, `h = 31 * h + (v * 307)`, on doubles:
both the multiplication and the addition round; `Infinity` absorbs. -/
def digestStep (h : Option Nat) (v : Nat) : Option Nat :=
  match h with
  | none => none
  | some x =>
    match jsFloat (31 * x) with
    | none => none
    | some y => jsFloat (y + v * 307)

/-- `x >>> 0` (ToUint32): `Infinity` maps to 0, an integer to its value
modulo 2^32. -/
def toUint32 : Option Nat → Nat
  | none => 0
  | some v => v % 4294967296

/-- `computeDigest(byteArray)`: two running accumulators seeded with
`0xdeadbeef` and `0x41c6ce57`, updated per byte as `h = 31*h + v*307` in
double arithmetic, each masked by `>>> 0` only after the loop. -/
def computeDigest (bytes : List Nat) : Nat × Nat :=
  let h1 := bytes.foldl digestStep (some 3735928559)
  let h2 := bytes.foldl digestStep (some 1103547991)
  (toUint32 h1, toUint32 h2)

/-! ### Pool state and error taxonomy -/

/-- Error outcomes of the modelled operations.  `toss` messages in the
source map to: `PathTooLong` ("Path too long"), `PoolFull` ("SAH pool is
full"), `NotFound` ("file not found"), `ImportBadSize` ("Byte array size
is invalid"), `ImportBadMagic` ("does not contain an SQLite database
header"), `NoAvailable` ("No available handles to import to").
`BadHandle` models the TypeError the source raises when
`nextAvailableSAH()` yields `undefined` and `sah.write` is invoked on it. -/
inductive Err where
  | PathTooLong
  | PoolFull
  | NotFound
  | BadHandle
  | ImportBadSize
  | ImportBadMagic
  | NoAvailable
  deriving DecidableEq

/-- The OPFS-related state of an `OpfsSAHPool` instance.

* `dir` is the backing OPFS directory: opaque file name to file bytes
  (the directory listing is the authoritative index the source rescans).
* `mapSAHToName` is the JS `Map` from SAH to opaque name; since an SAH is
  identified with the name backing it, it is the insertion-ordered list
  of names whose handles the pool holds.
* `mapFilenameToSAH` maps client path bytes to the SAH serving that path.
* `availableSAH` is the insertion-ordered set of currently unused SAHs.
* `apBody` is the shared 516-byte scratch buffer reused by both
  `setAssociatedPath` and `getAssociatedPath`.
* `nameCtr` is the fresh-name supply standing in for `getRandomName`.

`mapIdToFile` (per-open-file records) and `$error` are not modelled: no
claim refers to them. -/
structure PoolState where
  dir : List (Nat × List Nat)
  mapSAHToName : List Nat
  mapFilenameToSAH : List (List Nat × Nat)
  availableSAH : List Nat
  apBody : List Nat
  nameCtr : Nat
  deriving DecidableEq

/-- The bytes currently stored in the file backing `sah` (empty if the
handle has no backing file, which never happens in well-formed states). -/
def fileBytes (st : PoolState) (sah : Nat) : List Nat :=
  (jsGet st.dir sah).getD []

/-- `getCapacity()`: `this.mapSAHToName.size`. -/
def getCapacity (st : PoolState) : Nat := st.mapSAHToName.length

/-- `getFileCount()`: `this.mapFilenameToSAH.size`. -/
def getFileCount (st : PoolState) : Nat := st.mapFilenameToSAH.length

/-- `setAssociatedPath(sah, path, flags)`.  Encodes `path` into the shared
`apBody` buffer (writing only `path.length` bytes — the remainder of the
buffer keeps whatever a previous operation left there), stores the flags
big-endian at offset 512, computes the digest over all 516 bytes, writes
body and digest into the file, and either records the association (path
non-empty) or truncates to the data offset and marks the SAH available
(path empty). -/
def setAssociatedPath (st : PoolState) (sah : Nat) (path : List Nat)
    (flags : Nat) : PoolState × Option Err :=
  let w := min path.length st.apBody.length
  let body1 := path.take w ++ st.apBody.drop w
  if HEADER_MAX_PATH_SIZE ≤ w then
    ({ st with apBody := body1 }, some Err.PathTooLong)
  else
    let body2 := setU32BE body1 HEADER_OFFSET_FLAGS flags
    let dg := computeDigest body2
    let data0 := fileBytes st sah
    let data1 := fileWrite data0 0 body2
    let data2 := fileWrite data1 HEADER_OFFSET_DIGEST (le32 dg.1 ++ le32 dg.2)
    if path.isEmpty then
      ({ st with apBody := body2,
                 dir := jsSet st.dir sah (fileTruncate data2 HEADER_OFFSET_DATA),
                 availableSAH := jsSetAdd st.availableSAH sah }, none)
    else
      ({ st with apBody := body2,
                 dir := jsSet st.dir sah data2,
                 mapFilenameToSAH := jsSet st.mapFilenameToSAH path sah,
                 availableSAH := st.availableSAH.erase sah }, none)

/-- `Array.findIndex((v) => 0 === v)`: index of the first zero byte,
`none` when there is none (the source then gets `-1`). -/
def findIndexZero : List Nat → Option Nat
  | [] => none
  | b :: rest => if b = 0 then some 0 else (findIndexZero rest).map (· + 1)

/-- `getAssociatedPath(sah)`: reads the header into `apBody`, removes
files whose flags are transient or delete-on-close, verifies the digest,
and returns the path bytes up to the first zero byte (disassociating the
slot on a digest mismatch).  Returns the updated state and the path
(empty = unassociated). -/
def getAssociatedPath (st : PoolState) (sah : Nat) : PoolState × List Nat :=
  let data := fileBytes st sah
  let body := (fileRead data 0 st.apBody).2
  let st1 := { st with apBody := body }
  let flags := getU32BE body HEADER_OFFSET_FLAGS
  if body.headD 0 ≠ 0 ∧
      (flags &&& SQLITE_OPEN_DELETEONCLOSE ≠ 0 ∨
       flags &&& PERSISTENT_FILE_TYPES = 0) then
    ((setAssociatedPath st1 sah [] 0).1, [])
  else
    let dgBytes := (fileRead data HEADER_OFFSET_DIGEST (List.replicate 8 0)).2
    let fileDigest := (getU32LE dgBytes 0, getU32LE dgBytes 4)
    let compDigest := computeDigest body
    if fileDigest = compDigest then
      match findIndexZero body with
      | some 0 =>
        ({ st1 with dir := jsSet st1.dir sah (fileTruncate data HEADER_OFFSET_DATA) }, [])
      | some pathBytes => (st1, body.take pathBytes)
      | none => (st1, body.take (HEADER_CORPUS_SIZE - 1))
    else
      ((setAssociatedPath st1 sah [] 0).1, [])

/-- `addCapacity(n)`: creates `n` fresh empty files, acquires a handle for
each, and writes an empty association; returns the new capacity. -/
def addCapacity (st : PoolState) : Nat → PoolState × Nat
  | 0 => (st, getCapacity st)
  | n + 1 =>
    let name := st.nameCtr
    let st1 := { st with nameCtr := name + 1,
                         dir := st.dir ++ [(name, [])],
                         mapSAHToName := st.mapSAHToName ++ [name] }
    let st2 := (setAssociatedPath st1 name [] 0).1
    addCapacity st2 n

/-- Loop body of `reduceCapacity`: iterates over the snapshot
`Array.from(this.availableSAH)`, stopping once `nRm === n` or
`getFileCount() === getCapacity()`; each removal closes the handle,
removes the backing file, and deletes the SAH from both the handle map
and the available set. -/
def reduceCapacityGo (st : PoolState) :
    List Nat → Nat → Nat → PoolState × Nat
  | [], _, nRm => (st, nRm)
  | ah :: rest, n, nRm =>
    if nRm = n ∨ getFileCount st = getCapacity st then (st, nRm)
    else
      let st1 := { st with dir := jsDelete st.dir ah,
                           mapSAHToName := st.mapSAHToName.erase ah,
                           availableSAH := st.availableSAH.erase ah }
      reduceCapacityGo st1 rest n (nRm + 1)

/-- `reduceCapacity(n)`: removes up to `n` currently-unallocated files;
returns the number actually removed. -/
def reduceCapacity (st : PoolState) (n : Nat) : PoolState × Nat :=
  reduceCapacityGo st st.availableSAH n 0

/-- `deletePath(path)` (used by `xDelete` and by `xClose` for
delete-on-close files): removes the mapping if present and disassociates
the SAH; returns whether a mapping was found. -/
def deletePath (st : PoolState) (path : List Nat) : PoolState × Bool :=
  match jsGet st.mapFilenameToSAH path with
  | some sah =>
    let st1 := { st with mapFilenameToSAH := jsDelete st.mapFilenameToSAH path }
    ((setAssociatedPath st1 sah [] 0).1, true)
  | none => (st, false)

/-- `nextAvailableSAH()`: first element of the available set in insertion
order, without removing it. -/
def nextAvailableSAH (st : PoolState) : Option Nat :=
  st.availableSAH.head?

/-- Loop body of `acquireAccessHandles(clearFiles)`: for each backing file,
record the handle; then either wipe it (clear mode) or decode its header
and classify it as used or available. -/
def acquireGo (clearFiles : Bool) : PoolState → List Nat → PoolState
  | st, [] => st
  | st, name :: rest =>
    let st1 := { st with mapSAHToName := st.mapSAHToName ++ [name] }
    let st2 :=
      if clearFiles then
        let st' := { st1 with
          dir := jsSet st1.dir name (fileTruncate (fileBytes st1 name) HEADER_OFFSET_DATA) }
        (setAssociatedPath st' name [] 0).1
      else
        let res := getAssociatedPath st1 name
        if res.2.isEmpty then
          { res.1 with availableSAH := jsSetAdd res.1.availableSAH name }
        else
          { res.1 with mapFilenameToSAH := jsSet res.1.mapFilenameToSAH res.2 name }
    acquireGo clearFiles st2 rest

/-- `reset(clearFiles)`: releases all handles
(`releaseAccessHandles()` clears the three maps) and re-acquires one per
file in the backing directory, rebuilding all pool state from the
directory scan. -/
def reset (st : PoolState) (clearFiles : Bool) : PoolState :=
  let st1 := { st with mapSAHToName := [], mapFilenameToSAH := [],
                       availableSAH := [] }
  acquireGo clearFiles st1 (st1.dir.map Prod.fst)

/-- The pool-level behaviour of `xOpen(name, flags)` for a named path
(already URL-normalised): reuse the slot when the path is mapped;
otherwise, when `SQLITE_OPEN_CREATE` is set and the pool is not full,
associate the next available SAH with the path.  When the source calls
`setAssociatedPath` on an `undefined` SAH (available set empty while
`getFileCount() < getCapacity()`), the scratch-buffer mutations that
precede `sah.write` are preserved and the resulting TypeError is
`Err.BadHandle`.  The per-open `mapIdToFile` record is not modelled. -/
def xOpen (st : PoolState) (path : List Nat) (flags : Nat) :
    PoolState × Option Err :=
  match jsGet st.mapFilenameToSAH path with
  | some _ => (st, none)
  | none =>
    if flags &&& SQLITE_OPEN_CREATE ≠ 0 then
      if getFileCount st < getCapacity st then
        match nextAvailableSAH st with
        | some sah => setAssociatedPath st sah path flags
        | none =>
          let w := min path.length st.apBody.length
          let body1 := path.take w ++ st.apBody.drop w
          if HEADER_MAX_PATH_SIZE ≤ w then
            ({ st with apBody := body1 }, some Err.PathTooLong)
          else
            ({ st with apBody := setU32BE body1 HEADER_OFFSET_FLAGS flags },
             some Err.BadHandle)
      else (st, some Err.PoolFull)
    else (st, some Err.NotFound)

/-- The 15 magic bytes compared by `importDb`: "SQLite format 3". -/
def sqliteMagic : List Nat :=
  [83, 81, 76, 105, 116, 101, 32, 102, 111, 114, 109, 97, 116, 32, 51]

/-- `SAHPoolUtil.importDb(name, bytes)`: rejects byte arrays that are
shorter than 512 bytes, not a multiple of 512 bytes, or lack the SQLite
magic header; otherwise writes the bytes at the data offset of the slot
already mapped to `name` (or the next available one) and records the
association with `SQLITE_OPEN_MAIN_DB` flags. -/
def importDb (st : PoolState) (name : List Nat) (bytes : List Nat) :
    PoolState × Option Err :=
  let n := bytes.length
  if n < 512 ∨ n % 512 ≠ 0 then (st, some Err.ImportBadSize)
  else if bytes.take 15 ≠ sqliteMagic then (st, some Err.ImportBadMagic)
  else
    match (jsGet st.mapFilenameToSAH name).orElse (fun _ => nextAvailableSAH st) with
    | none => (st, some Err.NoAvailable)
    | some sah =>
      let st1 := { st with
        dir := jsSet st.dir sah (fileWrite (fileBytes st sah) HEADER_OFFSET_DATA bytes) }
      setAssociatedPath st1 sah name SQLITE_OPEN_MAIN_DB

/-- `SAHPoolUtil.exportFile(name)`: reads everything after the data offset
of the slot mapped to `name`; `n` below is the (possibly negative in the
source, here truncated-at-zero) payload size, and the read fills the
buffer completely when `n > 0`. -/
def exportFile (st : PoolState) (name : List Nat) : Option (List Nat) :=
  match jsGet st.mapFilenameToSAH name with
  | none => none
  | some sah =>
    let data := fileBytes st sah
    let n := data.length - HEADER_OFFSET_DATA
    let b := List.replicate n 0
    some (if 0 < n then (fileRead data HEADER_OFFSET_DATA b).2 else b)

/-- `xRead(pDest, n, offset)` on the file backing an open handle, as a
pure function of the file bytes and the destination buffer (whose length
is `n`): reads at `HEADER_OFFSET_DATA + offset`; on a short read the
remainder of the destination is zero-filled and the distinct
`SQLITE_IOERR_SHORT_READ` code is returned instead of `SQLITE_OK`. -/
def xRead (data : List Nat) (dest : List Nat) (offset : Nat) :
    List Nat × Nat :=
  let n := dest.length
  let res := fileRead data (HEADER_OFFSET_DATA + offset) dest
  if res.1 < n then
    ((res.2.take res.1 ++ List.replicate (n - res.1) 0), SQLITE_IOERR_SHORT_READ)
  else (res.2, SQLITE_OK)

/-! ### Concrete states: the initial pool and a reachable operation trace

`tracePool0` … `tracePool6` replay, on the model, the operation sequence
addCapacity(2); xOpen("/x.db"); xOpen("/a.db"); xDelete("/a.db");
xOpen("/x"); [addCapacity(1);] reset(false) with
`SQLITE_OPEN_READWRITE ||| SQLITE_OPEN_CREATE ||| SQLITE_OPEN_MAIN_DB`
open flags — the flags an SQLite client uses to create a main database. -/

/-- UTF-8 bytes of the (URL-normalised) client path "/x.db". -/
def pathXdb : List Nat := [47, 120, 46, 100, 98]

/-- UTF-8 bytes of the client path "/a.db". -/
def pathAdb : List Nat := [47, 97, 46, 100, 98]

/-- UTF-8 bytes of the client path "/x". -/
def pathX : List Nat := [47, 120]

/-- `SQLITE_OPEN_READWRITE ||| SQLITE_OPEN_CREATE ||| SQLITE_OPEN_MAIN_DB`. -/
def mainDbFlags : Nat := 262

/-- A pool with no backing files yet, a zeroed scratch buffer, and no
handles: the state of a freshly constructed `OpfsSAHPool` before its
first `addCapacity`. -/
def emptyPool : PoolState :=
  { dir := [], mapSAHToName := [], mapFilenameToSAH := [],
    availableSAH := [], apBody := List.replicate 516 0, nameCtr := 0 }

def tracePool0 : PoolState := (addCapacity emptyPool 2).1

def tracePool1 : PoolState := (xOpen tracePool0 pathXdb mainDbFlags).1

def tracePool2 : PoolState := (xOpen tracePool1 pathAdb mainDbFlags).1

def tracePool3 : PoolState := (deletePath tracePool2 pathAdb).1

def tracePool4 : PoolState := (xOpen tracePool3 pathX mainDbFlags).1

def tracePool5 : PoolState := reset tracePool4 false

def tracePool6 : PoolState := reset (addCapacity tracePool4 1).1 false

/-! ### Canonical byte-level forms of the headers the trace writes

Group structure mirrors the writes: a path, the zero padding the scratch
buffer happened to contain, the four big-endian flag bytes, the eight
digest bytes (two little-endian words, both zero because `computeDigest`
degenerates — see `computeDigest_eq_zero`), and the zero tail up to the
4096-byte data offset. -/

/-- The scratch buffer after `addCapacity`'s `setAssociatedPath(sah,'',0)`
on a pristine buffer: 512 zero path bytes plus zero flag bytes. -/
def apZero : List Nat := List.replicate 512 0 ++ [0, 0, 0, 0]

/-- A freshly added (never associated) backing file: zero header, zero
digest, zero payload region. -/
def fileZero : List Nat :=
  apZero ++ ([0, 0, 0, 0] ++ ([0, 0, 0, 0] ++ List.replicate 3572 0))

/-- Header corpus for path "/x.db" with flags 0x106. -/
def apX : List Nat := pathXdb ++ (List.replicate 507 0 ++ [0, 0, 1, 6])

/-- Backing file holding the "/x.db" header (zero digest, zero payload). -/
def fileX : List Nat :=
  apX ++ ([0, 0, 0, 0] ++ ([0, 0, 0, 0] ++ List.replicate 3572 0))

/-- Header corpus for path "/a.db" with flags 0x106. -/
def apA : List Nat := pathAdb ++ (List.replicate 507 0 ++ [0, 0, 1, 6])

/-- Backing file holding the "/a.db" header. -/
def fileA : List Nat :=
  apA ++ ([0, 0, 0, 0] ++ ([0, 0, 0, 0] ++ List.replicate 3572 0))

/-- The scratch buffer after disassociating while it still holds "/a.db":
the path bytes stay, only the flag bytes are zeroed. -/
def apACl : List Nat := pathAdb ++ (List.replicate 507 0 ++ [0, 0, 0, 0])

/-- The backing file of a disassociated slot whose header still carries
the stale path "/a.db" with flags 0. -/
def fileACl : List Nat :=
  apACl ++ ([0, 0, 0, 0] ++ ([0, 0, 0, 0] ++ List.replicate 3572 0))

/-- The scratch buffer holding stale "/x.db" path bytes with zero flags. -/
def apXCl : List Nat := pathXdb ++ (List.replicate 507 0 ++ [0, 0, 0, 0])

/-- The backing file a fresh `addCapacity` slot receives when the scratch
buffer still holds "/x.db": stale path bytes, flags 0. -/
def fileXCl : List Nat :=
  apXCl ++ ([0, 0, 0, 0] ++ ([0, 0, 0, 0] ++ List.replicate 3572 0))

/-! ### The trace states in literal form (proved equal to `tracePoolN`) -/

def lit0 : PoolState :=
  { dir := [(0, fileZero), (1, fileZero)], mapSAHToName := [0, 1],
    mapFilenameToSAH := [], availableSAH := [0, 1], apBody := apZero,
    nameCtr := 2 }

def lit1 : PoolState :=
  { dir := [(0, fileX), (1, fileZero)], mapSAHToName := [0, 1],
    mapFilenameToSAH := [(pathXdb, 0)], availableSAH := [1], apBody := apX,
    nameCtr := 2 }

def lit2 : PoolState :=
  { dir := [(0, fileX), (1, fileA)], mapSAHToName := [0, 1],
    mapFilenameToSAH := [(pathXdb, 0), (pathAdb, 1)], availableSAH := [],
    apBody := apA, nameCtr := 2 }

def lit3 : PoolState :=
  { dir := [(0, fileX), (1, fileACl)], mapSAHToName := [0, 1],
    mapFilenameToSAH := [(pathXdb, 0)], availableSAH := [1],
    apBody := apACl, nameCtr := 2 }

def lit4 : PoolState :=
  { dir := [(0, fileX), (1, fileX)], mapSAHToName := [0, 1],
    mapFilenameToSAH := [(pathXdb, 0), (pathX, 1)], availableSAH := [],
    apBody := apX, nameCtr := 2 }

def lit5 : PoolState :=
  { dir := [(0, fileX), (1, fileX)], mapSAHToName := [0, 1],
    mapFilenameToSAH := [(pathXdb, 1)], availableSAH := [], apBody := apX,
    nameCtr := 2 }

def lit4b : PoolState :=
  { dir := [(0, fileX), (1, fileX), (2, fileXCl)], mapSAHToName := [0, 1, 2],
    mapFilenameToSAH := [(pathXdb, 0), (pathX, 1)], availableSAH := [2],
    apBody := apXCl, nameCtr := 3 }

def lit6 : PoolState :=
  { dir := [(0, fileX), (1, fileX), (2, fileXCl)], mapSAHToName := [0, 1, 2],
    mapFilenameToSAH := [(pathXdb, 1)], availableSAH := [2],
    apBody := apXCl, nameCtr := 3 }

/-! ### The bit-flip experiment for the digest (claim C4) -/

/-- "/a.db" with bit 0 of byte 0 flipped: 0x2F ('/') becomes 0x2E ('.'). -/
def pathAdbFlip : List Nat := [46, 97, 46, 100, 98]

/-- The header corpus `setAssociatedPath` writes for ("/a.db", 0x106). -/
def c4Corpus : List Nat := pathAdb ++ (List.replicate 507 0 ++ [0, 0, 1, 6])

/-- The same corpus with a single bit flipped in its first path byte. -/
def c4Flip : List Nat := pathAdbFlip ++ (List.replicate 507 0 ++ [0, 0, 1, 6])

/-- The backing file of an "/a.db" slot after the single-bit flip: flipped
corpus followed by the originally stored digest words (both zero) and the
zero payload region. -/
def c4File : List Nat :=
  c4Flip ++ ([0, 0, 0, 0] ++ ([0, 0, 0, 0] ++ List.replicate 3572 0))

/-- A pool holding one slot backed by the bit-flipped file. -/
def c4State : PoolState :=
  { dir := [(0, c4File)], mapSAHToName := [0], mapFilenameToSAH := [],
    availableSAH := [], apBody := List.replicate 516 0, nameCtr := 1 }

/-! ### Well-formedness and auxiliary predicates -/

/-- `4 ^ n`, written recursively so it unfolds cheaply in proofs. -/
def pow4 : Nat → Nat
  | 0 => 1
  | n + 1 => 4 * pow4 n

/-- A client path the VFS can store: non-empty, strictly below the
512-byte header limit, UTF-8 bytes (nonzero, below 256). -/
def validPath (path : List Nat) : Prop :=
  path ≠ [] ∧ path.length ≤ 511 ∧ ∀ b ∈ path, 1 ≤ b ∧ b ≤ 255

/-- Structural well-formedness of a pool state: the scratch buffer has
header-corpus size, directory names and handles are duplicate-free, every
handle is backed by a directory entry, client paths are mapped at most
once, and the handles are exactly the used handles together with the
available ones (the partition the source maintains). -/
def PoolWF (st : PoolState) : Prop :=
  st.apBody.length = 516 ∧
  (st.dir.map Prod.fst).Nodup ∧
  st.mapSAHToName.Nodup ∧
  (∀ s ∈ st.mapSAHToName, s ∈ st.dir.map Prod.fst) ∧
  (st.mapFilenameToSAH.map Prod.fst).Nodup ∧
  st.availableSAH.Nodup ∧
  st.mapSAHToName.Perm (st.mapFilenameToSAH.map Prod.snd ++ st.availableSAH)

/-! ### Small concrete states used to witness the general theorems -/

/-- A three-byte backing file: shorter than the 4096-byte data offset. -/
def wFileSmall : List Nat := [1, 2, 3]

/-- A well-formed two-slot pool: slot 0 serves "/a.db" (with a backing
file shorter than the data offset), slot 1 is available. -/
def wPool : PoolState :=
  { dir := [(0, wFileSmall), (1, List.replicate 4096 0)],
    mapSAHToName := [0, 1], mapFilenameToSAH := [(pathAdb, 0)],
    availableSAH := [1], apBody := List.replicate 516 0, nameCtr := 2 }


/-- The 516-byte header corpus `setAssociatedPath` assembles in the
scratch buffer `ap` when encoding `path` with `flags`: the path bytes
overlay the front of the buffer, the flags overlay offset 512. -/
def encBody (ap path : List Nat) (flags : Nat) : List Nat :=
  setU32BE (path ++ ap.drop path.length) HEADER_OFFSET_FLAGS flags

/-- The file contents after `setAssociatedPath` writes the corpus `body`
at offset 0 and the digest words at offset 516 into a file holding `d`. -/
def writtenFile (d body : List Nat) : List Nat :=
  fileWrite (fileWrite d 0 body) HEADER_OFFSET_DIGEST
    (le32 (computeDigest body).1 ++ le32 (computeDigest body).2)

/-- One digest step as the spec describes it: `acc = 31*acc + byte*307`
with arithmetic modulo 2^32 (a masked 32-bit accumulator).  This follows
the spec text, not the source, and exists only to compare the two. -/
def specDigestStep (h v : Nat) : Nat := (31 * h + v * 307) % 4294967296

/-- The digest as the spec describes it: two 32-bit accumulators seeded
with the source constants and updated per byte modulo 2^32. -/
def specDigest (bytes : List Nat) : Nat × Nat :=
  (bytes.foldl specDigestStep 3735928559, bytes.foldl specDigestStep 1103547991)

/-! ## Theorems

### Degeneracy of the digest arithmetic

`computeDigest` never masks its accumulators inside the loop; over any
full 516-byte header corpus both accumulators overflow to `Infinity`, and
`>>> 0` turns `Infinity` into 0 — so the digest of every header corpus is
`(0, 0)`.  The lemmas below derive this from the rounding model. -/

theorem two_pow_le {a b : Nat} (h : a ≤ b) : (2 : Nat) ^ a ≤ 2 ^ b :=
  Nat.pow_le_pow_right (by norm_num) h

theorem maxfd_lt : MAX_FINITE_DOUBLE < 2 ^ 1024 := by
  have h1 : (0 : Nat) < 2 ^ 971 := pow_pos (by norm_num) _
  unfold MAX_FINITE_DOUBLE
  omega

theorem maxfd_ge (s : Nat) (hs : s < 4294967296) : s ≤ MAX_FINITE_DOUBLE := by
  have h1 : (4294967296 : Nat) ≤ 2 ^ 971 := by
    calc (4294967296 : Nat) = 2 ^ 32 := by norm_num
      _ ≤ 2 ^ 971 := two_pow_le (by norm_num)
  have h2 : (2 : Nat) ^ 971 + 2 ^ 971 ≤ 2 ^ 1024 := by
    have he : (2 : Nat) ^ 971 + 2 ^ 971 = 2 ^ 972 := by
      rw [← two_mul, ← pow_succ']
    rw [he]
    exact two_pow_le (by norm_num)
  unfold MAX_FINITE_DOUBLE
  omega

theorem ulpScale_small (m : Nat) (h : m < 2 ^ 53) :
    ∀ fuel, ulpScale fuel m = 1
  | 0 => rfl
  | fuel + 1 => by
    have hfe : FLOAT_EXACT_LIMIT = 2 ^ 53 := rfl
    simp only [ulpScale]
    rw [hfe, if_pos h]

theorem ulpScale_step {n d fuel : Nat} (hd : 0 < d)
    (hrec : 2 ^ 52 * ulpScale fuel (n / d) ≤ n / d ∧
            n / d < 2 ^ 53 * ulpScale fuel (n / d)) :
    2 ^ 52 * (ulpScale fuel (n / d) * d) ≤ n ∧
    n < 2 ^ 53 * (ulpScale fuel (n / d) * d) := by
  obtain ⟨hl, hu⟩ := hrec
  constructor
  · calc 2 ^ 52 * (ulpScale fuel (n / d) * d)
        = (2 ^ 52 * ulpScale fuel (n / d)) * d := by ring
      _ ≤ (n / d) * d := Nat.mul_le_mul_right d hl
      _ ≤ n := Nat.div_mul_le_self n d
  · have hub : n < (n / d + 1) * d := by
      have h1 := Nat.div_add_mod n d
      have h2 : n % d < d := Nat.mod_lt _ hd
      calc n = d * (n / d) + n % d := h1.symm
        _ < d * (n / d) + d := Nat.add_lt_add_left h2 _
        _ = (n / d + 1) * d := by ring
    calc n < (n / d + 1) * d := hub
      _ ≤ (2 ^ 53 * ulpScale fuel (n / d)) * d :=
        Nat.mul_le_mul_right d (by omega)
      _ = 2 ^ 53 * (ulpScale fuel (n / d) * d) := by ring

theorem ulpScale_spec : ∀ (fuel n : Nat), 2 ^ 53 ≤ n → n < 2 ^ 53 * 2 ^ fuel →
    2 ^ 52 * ulpScale fuel n ≤ n ∧ n < 2 ^ 53 * ulpScale fuel n := by
  have hfe : FLOAT_EXACT_LIMIT = 2 ^ 53 := rfl
  intro fuel
  induction fuel with
  | zero =>
    intro n h1 h2
    rw [pow_zero, mul_one] at h2
    omega
  | succ fuel ih =>
    intro n h1 h2
    simp only [ulpScale]
    rw [hfe]
    rw [if_neg (by omega)]
    by_cases hc1 : 2 ^ 53 * 2 ^ 512 ≤ n
    · rw [if_pos hc1]
      have hd : (0 : Nat) < 2 ^ 512 := pow_pos (by norm_num) _
      have hm1 : 2 ^ 53 ≤ n / 2 ^ 512 := by
        rw [Nat.le_div_iff_mul_le hd]
        exact hc1
      have hm2 : n / 2 ^ 512 < 2 ^ 53 * 2 ^ fuel := by
        rw [Nat.div_lt_iff_lt_mul hd]
        calc n < 2 ^ 53 * 2 ^ (fuel + 1) := h2
          _ = 2 ^ 53 * 2 ^ fuel * 2 := by rw [pow_succ]; ring
          _ ≤ 2 ^ 53 * 2 ^ fuel * 2 ^ 512 := by
            have h2le : (2 : Nat) ≤ 2 ^ 512 := by
              calc (2 : Nat) = 2 ^ 1 := (pow_one 2).symm
                _ ≤ 2 ^ 512 := two_pow_le (by norm_num)
            exact Nat.mul_le_mul_left _ h2le
      exact ulpScale_step hd (ih _ hm1 hm2)
    · rw [if_neg hc1]
      by_cases hc2 : 2 ^ 53 * 2 ^ 64 ≤ n
      · rw [if_pos hc2]
        have hd : (0 : Nat) < 2 ^ 64 := pow_pos (by norm_num) _
        have hm1 : 2 ^ 53 ≤ n / 2 ^ 64 := by
          rw [Nat.le_div_iff_mul_le hd]
          exact hc2
        have hm2 : n / 2 ^ 64 < 2 ^ 53 * 2 ^ fuel := by
          rw [Nat.div_lt_iff_lt_mul hd]
          calc n < 2 ^ 53 * 2 ^ (fuel + 1) := h2
            _ = 2 ^ 53 * 2 ^ fuel * 2 := by rw [pow_succ]; ring
            _ ≤ 2 ^ 53 * 2 ^ fuel * 2 ^ 64 := by
              have h2le : (2 : Nat) ≤ 2 ^ 64 := by
                calc (2 : Nat) = 2 ^ 1 := (pow_one 2).symm
                  _ ≤ 2 ^ 64 := two_pow_le (by norm_num)
              exact Nat.mul_le_mul_left _ h2le
        exact ulpScale_step hd (ih _ hm1 hm2)
      · rw [if_neg hc2]
        by_cases hsmall : n < 2 ^ 54
        · have hone : ulpScale fuel (n / 2) = 1 := by
            refine ulpScale_small _ ?_ fuel
            have h54 : (2 : Nat) ^ 54 = 2 ^ 53 * 2 := by rw [pow_succ]
            omega
          rw [hone]
          have h53 : (2 : Nat) ^ 53 = 2 ^ 52 * 2 := by rw [pow_succ]
          have h54 : (2 : Nat) ^ 54 = 2 ^ 53 * 2 := by rw [pow_succ]
          constructor
          · omega
          · omega
        · have hd : (0 : Nat) < 2 := by norm_num
          have hm1 : 2 ^ 53 ≤ n / 2 := by
            rw [Nat.le_div_iff_mul_le hd]
            have h54 : (2 : Nat) ^ 54 = 2 ^ 53 * 2 := by rw [pow_succ]
            omega
          have hm2 : n / 2 < 2 ^ 53 * 2 ^ fuel := by
            rw [Nat.div_lt_iff_lt_mul hd]
            calc n < 2 ^ 53 * 2 ^ (fuel + 1) := h2
              _ = 2 ^ 53 * 2 ^ fuel * 2 := by rw [pow_succ]; ring
          exact ulpScale_step hd (ih _ hm1 hm2)

theorem roundQ_ge (n p : Nat) : n / p ≤ roundQ n p := by
  unfold roundQ
  split <;> omega

theorem jsFloat_some_le {n v : Nat} (h : jsFloat n = some v) :
    v ≤ MAX_FINITE_DOUBLE := by
  have hfe : FLOAT_EXACT_LIMIT = 2 ^ 53 := rfl
  unfold jsFloat at h
  split at h
  · rename_i hlt
    cases h
    rw [hfe] at hlt
    have h2 : (2 : Nat) ^ 53 ≤ 2 ^ 971 := two_pow_le (by norm_num)
    have h3 : (0 : Nat) < 2 ^ 971 := pow_pos (by norm_num) _
    have h4 : (2 : Nat) ^ 971 + 2 ^ 971 ≤ 2 ^ 1024 := by
      have he : (2 : Nat) ^ 971 + 2 ^ 971 = 2 ^ 972 := by
        rw [← two_mul, ← pow_succ']
      rw [he]
      exact two_pow_le (by norm_num)
    unfold MAX_FINITE_DOUBLE
    omega
  · split at h
    · exact absurd h (by simp)
    · rename_i hnot
      cases h
      omega

theorem jsFloat_lb {n v : Nat} (hn : n < 2 ^ 53 * 2 ^ 1100)
    (h : jsFloat n = some v) : n ≤ 2 * v := by
  have hfe : FLOAT_EXACT_LIMIT = 2 ^ 53 := rfl
  unfold jsFloat at h
  split at h
  · cases h
    omega
  · rename_i hfast
    rw [hfe] at hfast
    have h53 : 2 ^ 53 ≤ n := by omega
    obtain ⟨hl, hu⟩ := ulpScale_spec 1100 n h53 hn
    split at h
    · exact absurd h (by simp)
    · cases h
      set p := ulpScale 1100 n with hp
      have hppos : 0 < p := by
        rcases Nat.eq_zero_or_pos p with h0 | h0
        · rw [h0, Nat.mul_zero] at hu
          omega
        · exact h0
      have hqr := Nat.div_add_mod n p
      have hcm : p * (n / p) = n / p * p := Nat.mul_comm p (n / p)
      have hr : n % p < p := Nat.mod_lt _ hppos
      have hrg : n / p ≤ roundQ n p := roundQ_ge n p
      have hv : n / p * p ≤ roundQ n p * p :=
        Nat.mul_le_mul_right p hrg
      have hqge : 2 ^ 52 ≤ n / p := by
        rw [Nat.le_div_iff_mul_le hppos]
        exact hl
      have hpe : p ≤ n / p * p := by
        calc p = 1 * p := (one_mul p).symm
          _ ≤ n / p * p := by
            refine Nat.mul_le_mul_right p ?_
            have h1 : (1 : Nat) ≤ 2 ^ 52 := Nat.one_le_two_pow
            omega
      omega

theorem digestStep_some (x v : Nat) :
    digestStep (some x) v =
      match jsFloat (31 * x) with
      | none => none
      | some y => jsFloat (y + v * 307) := rfl

theorem digestStep_growth {x v z : Nat} (hx : x ≤ MAX_FINITE_DOUBLE)
    (hv : v ≤ 255) (h : digestStep (some x) v = some z) :
    4 * x ≤ z ∧ z ≤ MAX_FINITE_DOUBLE := by
  rw [digestStep_some] at h
  cases hy : jsFloat (31 * x) with
  | none =>
    rw [hy] at h
    exact Option.noConfusion h
  | some y =>
    rw [hy] at h
    have h' : jsFloat (y + v * 307) = some z := h
    have hmx := maxfd_lt
    have h1029 : (32 : Nat) * 2 ^ 1024 = 2 ^ 1029 := by
      rw [show (32 : Nat) = 2 ^ 5 by norm_num, ← pow_add]
    have h1153 : (2 : Nat) ^ 53 * 2 ^ 1100 = 2 ^ 1153 := by rw [← pow_add]
    have hmono : (2 : Nat) ^ 1029 ≤ 2 ^ 1153 := two_pow_le (by norm_num)
    have hb1 : 31 * x < 2 ^ 53 * 2 ^ 1100 := by omega
    have h1 := jsFloat_lb hb1 hy
    have hyle := jsFloat_some_le hy
    have hb2 : y + v * 307 < 2 ^ 53 * 2 ^ 1100 := by omega
    have h2 := jsFloat_lb hb2 h'
    have hzle := jsFloat_some_le h'
    exact ⟨by omega, hzle⟩

theorem foldl_digestStep_none (l : List Nat) :
    l.foldl digestStep none = none := by
  induction l with
  | nil => rfl
  | cons b rest ih =>
    rw [List.foldl_cons, show digestStep none b = none from rfl]
    exact ih

theorem foldl_digestStep_growth (l : List Nat) : ∀ x : Nat,
    x ≤ MAX_FINITE_DOUBLE → (∀ b ∈ l, b ≤ 255) →
    l.foldl digestStep (some x) = none ∨
    ∃ z, l.foldl digestStep (some x) = some z ∧
      pow4 l.length * x ≤ z ∧ z ≤ MAX_FINITE_DOUBLE := by
  induction l with
  | nil =>
    intro x hx _
    right
    exact ⟨x, rfl, by simp [pow4], hx⟩
  | cons b rest ih =>
    intro x hx hb
    rw [List.foldl_cons]
    cases hstep : digestStep (some x) b with
    | none =>
      left
      exact foldl_digestStep_none rest
    | some z0 =>
      obtain ⟨hg, hle⟩ := digestStep_growth hx (hb b (by simp)) hstep
      rcases ih z0 hle (fun c hc => hb c (by simp [hc])) with
        hnone | ⟨z, hz, hzg, hzle⟩
      · left
        exact hnone
      · right
        refine ⟨z, hz, ?_, hzle⟩
        have he : pow4 (b :: rest).length * x = pow4 rest.length * (4 * x) := by
          simp only [List.length_cons, pow4]
          ring
        rw [he]
        exact le_trans (Nat.mul_le_mul_left _ hg) hzg

theorem pow4_eq (n : Nat) : pow4 n = 4 ^ n := by
  induction n with
  | zero => rfl
  | succ n ih => rw [pow4, ih, pow_succ]; ring

theorem pow4_516_gt : MAX_FINITE_DOUBLE < pow4 516 := by
  rw [pow4_eq]
  have h4 : (4 : Nat) ^ 516 = 2 ^ 1032 := by
    rw [show (4 : Nat) = 2 ^ 2 by norm_num, ← pow_mul]
  rw [h4]
  have h1 := maxfd_lt
  have h2 : (2 : Nat) ^ 1024 ≤ 2 ^ 1032 := two_pow_le (by norm_num)
  omega

/-- The heart of claim C4: over any full 516-byte header corpus the two
accumulators of `computeDigest` overflow to `Infinity`, so `>>> 0` yields
the constant digest `(0, 0)` regardless of the corpus contents. -/
theorem computeDigest_eq_zero (bytes : List Nat) (hlen : bytes.length = 516)
    (hb : ∀ b ∈ bytes, b ≤ 255) : computeDigest bytes = (0, 0) := by
  have hseed : ∀ s : Nat, 1 ≤ s → s ≤ MAX_FINITE_DOUBLE →
      bytes.foldl digestStep (some s) = none := by
    intro s hs1 hs2
    rcases foldl_digestStep_growth bytes s hs2 hb with h | ⟨z, _, hzg, hzle⟩
    · exact h
    · exfalso
      have h1 : pow4 516 * 1 ≤ pow4 516 * s := Nat.mul_le_mul_left _ hs1
      have h2 := pow4_516_gt
      rw [hlen] at hzg
      omega
  unfold computeDigest
  rw [hseed 3735928559 (by norm_num) (maxfd_ge _ (by norm_num)),
      hseed 1103547991 (by norm_num) (maxfd_ge _ (by norm_num))]
  rfl

/-! ### List toolkit for evaluating the byte-level operations symbolically -/

theorem headD_append {P : List Nat} (R : List Nat) (d : Nat) (h : P ≠ []) :
    (P ++ R).headD d = P.headD d := by
  cases P with
  | nil => exact absurd rfl h
  | cons a t => rfl

theorem getU32BE_at_append (A : List Nat) (f0 f1 f2 f3 : Nat)
    (R : List Nat) (h : A.length = 512) :
    getU32BE (A ++ f0 :: f1 :: f2 :: f3 :: R) 512 =
      f0 * 16777216 + f1 * 65536 + f2 * 256 + f3 := by
  unfold getU32BE
  have h0 : (A ++ f0 :: f1 :: f2 :: f3 :: R).getD 512 0 = f0 := by
    rw [List.getD_append_right _ _ _ _ (by omega), show 512 - A.length = 0 by omega]
    rfl
  have h1 : (A ++ f0 :: f1 :: f2 :: f3 :: R).getD (512 + 1) 0 = f1 := by
    rw [List.getD_append_right _ _ _ _ (by omega), show 512 + 1 - A.length = 1 by omega]
    rfl
  have h2 : (A ++ f0 :: f1 :: f2 :: f3 :: R).getD (512 + 2) 0 = f2 := by
    rw [List.getD_append_right _ _ _ _ (by omega), show 512 + 2 - A.length = 2 by omega]
    rfl
  have h3 : (A ++ f0 :: f1 :: f2 :: f3 :: R).getD (512 + 3) 0 = f3 := by
    rw [List.getD_append_right _ _ _ _ (by omega), show 512 + 3 - A.length = 3 by omega]
    rfl
  rw [h0, h1, h2, h3]

theorem findIndexZero_append_pos (P : List Nat) (hP : ∀ b ∈ P, b ≠ 0)
    (k : Nat) (hk : 0 < k) (R : List Nat) :
    findIndexZero (P ++ (List.replicate k 0 ++ R)) = some P.length := by
  induction P with
  | nil =>
    obtain ⟨m, rfl⟩ := Nat.exists_eq_succ_of_ne_zero (Nat.pos_iff_ne_zero.1 hk)
    rw [List.nil_append, List.replicate_succ]
    rfl
  | cons p P' ih =>
    have hp : p ≠ 0 := hP p (by simp)
    rw [List.cons_append, findIndexZero, if_neg hp,
        ih (fun b hb => hP b (by simp [hb]))]
    rfl

theorem body_take (P : List Nat) (k f0 f1 f2 f3 : Nat) (T : List Nat)
    (h : P.length + k = 512) :
    (P ++ (List.replicate k 0 ++ f0 :: f1 :: f2 :: f3 :: T)).take 516 =
      P ++ (List.replicate k 0 ++ [f0, f1, f2, f3]) := by
  rw [List.take_append_eq_append_take, List.take_of_length_le (by omega)]
  congr 1
  rw [List.take_append_eq_append_take, List.take_replicate, List.length_replicate]
  rw [min_eq_right (by omega), show 516 - P.length - k = 4 by omega]
  rfl

theorem body_drop (P : List Nat) (k f0 f1 f2 f3 : Nat) (T : List Nat)
    (h : P.length + k = 512) :
    (P ++ (List.replicate k 0 ++ f0 :: f1 :: f2 :: f3 :: T)).drop 516 = T := by
  rw [List.drop_append_eq_append_drop, List.drop_eq_nil_of_le (by omega),
      List.nil_append, List.drop_append_eq_append_drop, List.drop_replicate,
      List.length_replicate]
  rw [show k - (516 - P.length) = 0 by omega, List.replicate_zero,
      List.nil_append, show 516 - P.length - k = 4 by omega]
  rfl

theorem fileRead_full (B T ap : List Nat) (hB : B.length = 516)
    (hap : ap.length = 516) : (fileRead (B ++ T) 0 ap).2 = B := by
  simp only [fileRead]
  have hcnt : min ap.length ((B ++ T).length - 0) = 516 := by
    rw [List.length_append, hB, hap]
    omega
  rw [hcnt, List.drop_zero, List.take_append_eq_append_take,
      List.take_of_length_le (by omega), show 516 - B.length = 0 by omega,
      List.take_zero, List.drop_eq_nil_of_le (by omega)]
  simp

theorem fileRead_digest (B T : List Nat) (hB : B.length = 516) :
    (fileRead (B ++ (0 :: 0 :: 0 :: 0 :: 0 :: 0 :: 0 :: 0 :: T)) 516
      (List.replicate 8 0)).2 = List.replicate 8 0 := by
  simp only [fileRead]
  have hlen : (B ++ (0 :: 0 :: 0 :: 0 :: 0 :: 0 :: 0 :: 0 :: T)).length =
      524 + T.length := by
    simp [hB]
    omega
  have hcnt : min (List.replicate 8 (0 : Nat)).length
      ((B ++ (0 :: 0 :: 0 :: 0 :: 0 :: 0 :: 0 :: 0 :: T)).length - 516) = 8 := by
    rw [List.length_replicate, hlen]
    exact min_eq_left (by omega)
  rw [hcnt, List.drop_left' hB]
  rfl

/-! ### Generic evaluation lemmas for the header operations -/

theorem setAssociatedPath_assoc (st : PoolState) (sah : Nat) (path : List Nat)
    (flags : Nat) (hap : st.apBody.length = 516) (hlen : path.length ≤ 511)
    (hne : path ≠ []) :
    setAssociatedPath st sah path flags =
      ({ st with apBody := encBody st.apBody path flags,
                 dir := jsSet st.dir sah
                   (writtenFile (fileBytes st sah) (encBody st.apBody path flags)),
                 mapFilenameToSAH := jsSet st.mapFilenameToSAH path sah,
                 availableSAH := st.availableSAH.erase sah }, none) := by
  simp only [setAssociatedPath]
  have hw : min path.length st.apBody.length = path.length := by
    rw [hap]
    omega
  rw [hw, List.take_length]
  rw [if_neg (show ¬ HEADER_MAX_PATH_SIZE ≤ path.length from by
    simp only [HEADER_MAX_PATH_SIZE]; omega)]
  rw [show path.isEmpty = false from by
    cases path with
    | nil => exact absurd rfl hne
    | cons a t => rfl]
  simp only [Bool.false_eq_true, if_false, encBody, writtenFile]

theorem setAssociatedPath_empty (st : PoolState) (sah : Nat) :
    setAssociatedPath st sah [] 0 =
      ({ st with apBody := encBody st.apBody [] 0,
                 dir := jsSet st.dir sah
                   (fileTruncate
                     (writtenFile (fileBytes st sah) (encBody st.apBody [] 0))
                     HEADER_OFFSET_DATA),
                 availableSAH := jsSetAdd st.availableSAH sah }, none) := by
  simp only [setAssociatedPath]
  rw [if_neg (show ¬ HEADER_MAX_PATH_SIZE ≤ min ([] : List Nat).length st.apBody.length from by
    simp [HEADER_MAX_PATH_SIZE])]
  simp only [List.isEmpty_nil, if_true, encBody, writtenFile]
  simp

theorem getAssociatedPath_valid (st : PoolState) (sah : Nat) (P : List Nat)
    (k f0 f1 f2 f3 : Nat) (T : List Nat)
    (hfile : fileBytes st sah =
      P ++ (List.replicate k 0 ++ f0 :: f1 :: f2 :: f3 ::
        (0 :: 0 :: 0 :: 0 :: 0 :: 0 :: 0 :: 0 :: T)))
    (hap : st.apBody.length = 516) (hPk : P.length + k = 512) (hk : 0 < k)
    (hPne : P ≠ []) (hPb : ∀ b ∈ P, 1 ≤ b ∧ b ≤ 255)
    (hf : f0 ≤ 255 ∧ f1 ≤ 255 ∧ f2 ≤ 255 ∧ f3 ≤ 255)
    (hflag : ¬((f0 * 16777216 + f1 * 65536 + f2 * 256 + f3) &&&
                 SQLITE_OPEN_DELETEONCLOSE ≠ 0 ∨
               (f0 * 16777216 + f1 * 65536 + f2 * 256 + f3) &&&
                 PERSISTENT_FILE_TYPES = 0)) :
    getAssociatedPath st sah =
      ({ st with apBody := P ++ (List.replicate k 0 ++ [f0, f1, f2, f3]) }, P) := by
  have hBlen : (P ++ (List.replicate k 0 ++ [f0, f1, f2, f3])).length = 516 := by
    simp only [List.length_append, List.length_replicate, List.length_cons,
      List.length_nil]
    omega
  have hsplit : fileBytes st sah =
      (P ++ (List.replicate k 0 ++ [f0, f1, f2, f3])) ++
        (0 :: 0 :: 0 :: 0 :: 0 :: 0 :: 0 :: 0 :: T) := by
    rw [hfile]
    simp [List.append_assoc]
  have hbody : (fileRead (fileBytes st sah) 0 st.apBody).2 =
      P ++ (List.replicate k 0 ++ [f0, f1, f2, f3]) := by
    rw [hsplit]
    exact fileRead_full _ _ _ hBlen hap
  have hOF : HEADER_OFFSET_FLAGS = 512 := rfl
  have hOD : HEADER_OFFSET_DIGEST = 516 := rfl
  have hflags : getU32BE (P ++ (List.replicate k 0 ++ [f0, f1, f2, f3]))
      HEADER_OFFSET_FLAGS = f0 * 16777216 + f1 * 65536 + f2 * 256 + f3 := by
    have hA : (P ++ List.replicate k 0).length = 512 := by
      simp only [List.length_append, List.length_replicate]
      omega
    have hre : P ++ (List.replicate k 0 ++ [f0, f1, f2, f3]) =
        (P ++ List.replicate k 0) ++ f0 :: f1 :: f2 :: f3 :: ([] : List Nat) := by
      simp [List.append_assoc]
    rw [hOF, hre]
    exact getU32BE_at_append _ _ _ _ _ _ hA
  have hbnd : ∀ b ∈ P ++ (List.replicate k 0 ++ [f0, f1, f2, f3]), b ≤ 255 := by
    intro b hb
    rcases List.mem_append.1 hb with h | h
    · exact (hPb b h).2
    · rcases List.mem_append.1 h with h | h
      · rw [List.eq_of_mem_replicate h]
        omega
      · simp only [List.mem_cons, List.not_mem_nil, or_false] at h
        rcases h with rfl | rfl | rfl | rfl
        · exact hf.1
        · exact hf.2.1
        · exact hf.2.2.1
        · exact hf.2.2.2
  have hcomp : computeDigest (P ++ (List.replicate k 0 ++ [f0, f1, f2, f3])) =
      (0, 0) := computeDigest_eq_zero _ hBlen hbnd
  have hfz : findIndexZero (P ++ (List.replicate k 0 ++ [f0, f1, f2, f3])) =
      some P.length :=
    findIndexZero_append_pos P
      (fun b hb => by have := (hPb b hb).1; omega) k hk _
  simp only [getAssociatedPath]
  rw [hbody, hflags]
  rw [if_neg (fun hc => hflag hc.2)]
  rw [hsplit, hOD, fileRead_digest _ _ hBlen]
  rw [show getU32LE (List.replicate 8 0) 0 = 0 from rfl,
      show getU32LE (List.replicate 8 0) 4 = 0 from rfl, hcomp]
  rw [if_pos rfl]
  rw [hfz]
  obtain ⟨p0, P0, rfl⟩ := List.exists_cons_of_ne_nil hPne
  rw [List.length_cons]
  have htake : ((p0 :: P0) ++ (List.replicate k 0 ++ [f0, f1, f2, f3])).take
      (P0.length + 1) = p0 :: P0 := by
    rw [show P0.length + 1 = (p0 :: P0).length from (List.length_cons p0 P0).symm,
        List.take_left]
  split
  · rename_i heq
    exact absurd (Option.some.inj heq) (by omega)
  · rename_i pb hne0 heq
    have h1 := Option.some.inj heq
    subst h1
    rw [htake]
  · rename_i heq
    exact Option.noConfusion heq

theorem getAssociatedPath_drop (st : PoolState) (sah : Nat) (P : List Nat)
    (k f0 f1 f2 f3 : Nat) (T : List Nat)
    (hfile : fileBytes st sah =
      P ++ (List.replicate k 0 ++ f0 :: f1 :: f2 :: f3 :: T))
    (hap : st.apBody.length = 516) (hPk : P.length + k = 512)
    (hPhead : P.headD 0 ≠ 0) (hPne : P ≠ [])
    (hflag : (f0 * 16777216 + f1 * 65536 + f2 * 256 + f3) &&&
               SQLITE_OPEN_DELETEONCLOSE ≠ 0 ∨
             (f0 * 16777216 + f1 * 65536 + f2 * 256 + f3) &&&
               PERSISTENT_FILE_TYPES = 0) :
    getAssociatedPath st sah =
      ((setAssociatedPath
          { st with apBody := P ++ (List.replicate k 0 ++ [f0, f1, f2, f3]) }
          sah [] 0).1, []) := by
  have hBlen : (P ++ (List.replicate k 0 ++ [f0, f1, f2, f3])).length = 516 := by
    simp only [List.length_append, List.length_replicate, List.length_cons,
      List.length_nil]
    omega
  have hsplit : fileBytes st sah =
      (P ++ (List.replicate k 0 ++ [f0, f1, f2, f3])) ++ T := by
    rw [hfile]
    simp [List.append_assoc]
  have hbody : (fileRead (fileBytes st sah) 0 st.apBody).2 =
      P ++ (List.replicate k 0 ++ [f0, f1, f2, f3]) := by
    rw [hsplit]
    exact fileRead_full _ _ _ hBlen hap
  have hOF : HEADER_OFFSET_FLAGS = 512 := rfl
  have hflags : getU32BE (P ++ (List.replicate k 0 ++ [f0, f1, f2, f3]))
      HEADER_OFFSET_FLAGS = f0 * 16777216 + f1 * 65536 + f2 * 256 + f3 := by
    have hA : (P ++ List.replicate k 0).length = 512 := by
      simp only [List.length_append, List.length_replicate]
      omega
    have hre : P ++ (List.replicate k 0 ++ [f0, f1, f2, f3]) =
        (P ++ List.replicate k 0) ++ f0 :: f1 :: f2 :: f3 :: ([] : List Nat) := by
      simp [List.append_assoc]
    rw [hOF, hre]
    exact getU32BE_at_append _ _ _ _ _ _ hA
  simp only [getAssociatedPath]
  rw [hbody, hflags]
  rw [if_pos ⟨by rw [headD_append _ _ hPne]; exact hPhead, hflag⟩]

/-! ### Evaluating the trace's header writes -/

theorem setU32BE_512 (A g : List Nat) (v : Nat) (hA : A.length = 512)
    (hg : g.length = 4) :
    setU32BE (A ++ g) 512 v =
      A ++ [v / 16777216 % 256, v / 65536 % 256, v / 256 % 256, v % 256] := by
  unfold setU32BE
  rw [List.take_left' hA, List.drop_append_eq_append_drop,
      List.drop_eq_nil_of_le (by omega), List.drop_eq_nil_of_le (by omega)]
  simp

theorem writtenFile_eq (d body : List Nat) (hb : body.length = 516)
    (hz : computeDigest body = (0, 0)) :
    writtenFile d body =
      body ++ ([0, 0, 0, 0] ++ ([0, 0, 0, 0] ++ d.drop 524)) := by
  unfold writtenFile fileWrite
  rw [hz]
  have hOD : HEADER_OFFSET_DIGEST = 516 := rfl
  rw [hOD, show le32 (0, 0).1 = [0, 0, 0, 0] from rfl]
  have hX : List.take 0 d ++ List.replicate (0 - d.length) 0 ++ body ++
      List.drop (0 + body.length) d = body ++ List.drop 516 d := by
    rw [List.take_zero, show (0 : Nat) - d.length = 0 from by omega,
        List.replicate_zero, List.nil_append, List.nil_append, zero_add, hb]
  rw [hX, List.take_left' hb]
  have hlen2 : (body ++ List.drop 516 d).length =
      516 + (List.drop 516 d).length := by
    simp [hb]
  rw [hlen2, show 516 - (516 + (List.drop 516 d).length) = 0 from by omega,
      List.replicate_zero]
  rw [show (516 + ([0, 0, 0, 0] ++ [0, 0, 0, 0] : List Nat).length) = 524
        from rfl]
  rw [List.drop_append_eq_append_drop, List.drop_eq_nil_of_le (by omega),
      show 524 - body.length = 8 from by omega, List.drop_drop,
      show (516 + 8 : Nat) = 524 from rfl]
  simp [List.append_assoc]

theorem apX_digest : computeDigest apX = (0, 0) :=
  computeDigest_eq_zero _ (by decide) (by decide)

theorem apA_digest : computeDigest apA = (0, 0) :=
  computeDigest_eq_zero _ (by decide) (by decide)

theorem apZero_digest : computeDigest apZero = (0, 0) :=
  computeDigest_eq_zero _ (by decide) (by decide)

theorem apACl_digest : computeDigest apACl = (0, 0) :=
  computeDigest_eq_zero _ (by decide) (by decide)

theorem apXCl_digest : computeDigest apXCl = (0, 0) :=
  computeDigest_eq_zero _ (by decide) (by decide)

theorem repAp_digest : computeDigest (List.replicate 516 0) = (0, 0) :=
  computeDigest_eq_zero _ (by decide) (by decide)

theorem apZero_len : apZero.length = 516 := by simp [apZero]

theorem apX_len : apX.length = 516 := by simp [apX, pathXdb]

theorem apA_len : apA.length = 516 := by simp [apA, pathAdb]

theorem apACl_len : apACl.length = 516 := by simp [apACl, pathAdb]

theorem apXCl_len : apXCl.length = 516 := by simp [apXCl, pathXdb]

theorem file_drop524 (A : List Nat) (hA : A.length = 516) (R : List Nat) :
    (A ++ ([0, 0, 0, 0] ++ ([0, 0, 0, 0] ++ R))).drop 524 = R := by
  rw [List.drop_append_eq_append_drop, List.drop_eq_nil_of_le (by omega),
      List.nil_append, show 524 - A.length = 8 from by omega]
  rfl

theorem fileTruncate_id (l : List Nat) (hl : l.length = 4096) :
    fileTruncate l 4096 = l := by
  unfold fileTruncate
  rw [List.take_of_length_le (by omega), show 4096 - l.length = 0 from by omega,
      List.replicate_zero, List.append_nil]

theorem enc_init : encBody (List.replicate 516 0) [] 0 = apZero := by
  unfold encBody
  rw [show HEADER_OFFSET_FLAGS = 512 from rfl]
  simp only [List.length_nil, List.drop_zero, List.nil_append]
  rw [show (516 : Nat) = 512 + 4 from rfl, List.replicate_add,
      setU32BE_512 (List.replicate 512 0) (List.replicate 4 0) 0
        (List.length_replicate 512 0) (List.length_replicate 4 0)]
  rfl

theorem enc_zero : encBody apZero [] 0 = apZero := by
  unfold encBody
  rw [show HEADER_OFFSET_FLAGS = 512 from rfl]
  simp only [List.length_nil, List.drop_zero, List.nil_append]
  unfold apZero
  rw [setU32BE_512 (List.replicate 512 0) [0, 0, 0, 0] 0
      (List.length_replicate 512 0) rfl]

theorem encX : encBody apZero pathXdb 262 = apX := by
  unfold encBody apZero
  rw [show HEADER_OFFSET_FLAGS = 512 from rfl]
  have hd : (List.replicate 512 (0 : Nat) ++ [0, 0, 0, 0]).drop pathXdb.length =
      List.replicate 507 0 ++ [0, 0, 0, 0] := by
    rw [show pathXdb.length = 5 from rfl, List.drop_append_eq_append_drop,
        List.drop_replicate, List.length_replicate,
        show (512 : Nat) - 5 = 507 from rfl, show (5 : Nat) - 512 = 0 from rfl,
        List.drop_zero]
  rw [hd, ← List.append_assoc,
      setU32BE_512 (pathXdb ++ List.replicate 507 0) [0, 0, 0, 0] 262
        (by simp [pathXdb]) rfl]
  unfold apX
  norm_num [List.append_assoc]

theorem encA : encBody apX pathAdb 262 = apA := by
  unfold encBody apX
  rw [show HEADER_OFFSET_FLAGS = 512 from rfl]
  have hd : (pathXdb ++ (List.replicate 507 (0 : Nat) ++ [0, 0, 1, 6])).drop
      pathAdb.length = List.replicate 507 0 ++ [0, 0, 1, 6] := by
    rw [show pathAdb.length = 5 from rfl, List.drop_append_eq_append_drop,
        show pathXdb.drop 5 = [] from rfl,
        show (5 : Nat) - pathXdb.length = 0 from rfl, List.drop_zero,
        List.nil_append]
  rw [hd, ← List.append_assoc,
      setU32BE_512 (pathAdb ++ List.replicate 507 0) [0, 0, 1, 6] 262
        (by simp [pathAdb]) rfl]
  unfold apA
  norm_num [List.append_assoc]

theorem encACl : encBody apA [] 0 = apACl := by
  unfold encBody apA
  rw [show HEADER_OFFSET_FLAGS = 512 from rfl]
  simp only [List.length_nil, List.drop_zero, List.nil_append]
  rw [← List.append_assoc,
      setU32BE_512 (pathAdb ++ List.replicate 507 0) [0, 0, 1, 6] 0
        (by simp [pathAdb]) rfl]
  unfold apACl
  norm_num [List.append_assoc]

theorem encX2 : encBody apACl pathX 262 = apX := by
  unfold encBody apACl
  rw [show HEADER_OFFSET_FLAGS = 512 from rfl]
  have hd : (pathAdb ++ (List.replicate 507 (0 : Nat) ++ [0, 0, 0, 0])).drop
      pathX.length = [46, 100, 98] ++ (List.replicate 507 0 ++ [0, 0, 0, 0]) := by
    rw [show pathX.length = 2 from rfl, List.drop_append_eq_append_drop,
        show pathAdb.drop 2 = [46, 100, 98] from rfl,
        show (2 : Nat) - pathAdb.length = 0 from rfl, List.drop_zero]
  rw [hd]
  rw [show pathX ++ ([46, 100, 98] ++ (List.replicate 507 (0 : Nat) ++ [0, 0, 0, 0])) =
        (pathXdb ++ List.replicate 507 0) ++ [0, 0, 0, 0] from by
    rw [← List.append_assoc, ← List.append_assoc]
    rfl]
  rw [setU32BE_512 (pathXdb ++ List.replicate 507 0) [0, 0, 0, 0] 262
        (by simp [pathXdb]) rfl]
  unfold apX
  norm_num [List.append_assoc]

theorem encXCl : encBody apX [] 0 = apXCl := by
  unfold encBody apX
  rw [show HEADER_OFFSET_FLAGS = 512 from rfl]
  simp only [List.length_nil, List.drop_zero, List.nil_append]
  rw [← List.append_assoc,
      setU32BE_512 (pathXdb ++ List.replicate 507 0) [0, 0, 1, 6] 0
        (by simp [pathXdb]) rfl]
  unfold apXCl
  norm_num [List.append_assoc]

theorem encXClSelf : encBody apXCl [] 0 = apXCl := by
  unfold encBody apXCl
  rw [show HEADER_OFFSET_FLAGS = 512 from rfl]
  simp only [List.length_nil, List.drop_zero, List.nil_append]
  rw [← List.append_assoc,
      setU32BE_512 (pathXdb ++ List.replicate 507 0) [0, 0, 0, 0] 0
        (by simp [pathXdb]) rfl]

theorem wfX : writtenFile fileZero apX = fileX := by
  rw [writtenFile_eq _ _ apX_len apX_digest]
  unfold fileZero fileX
  rw [file_drop524 _ apZero_len]

theorem wfA : writtenFile fileZero apA = fileA := by
  rw [writtenFile_eq _ _ apA_len apA_digest]
  unfold fileZero fileA
  rw [file_drop524 _ apZero_len]

theorem wfX2 : writtenFile fileACl apX = fileX := by
  rw [writtenFile_eq _ _ apX_len apX_digest]
  unfold fileACl fileX
  rw [file_drop524 _ apACl_len]

theorem wtZero : fileTruncate (writtenFile [] apZero) HEADER_OFFSET_DATA =
    fileZero := by
  rw [writtenFile_eq _ _ apZero_len apZero_digest,
      show HEADER_OFFSET_DATA = 4096 from rfl]
  unfold fileTruncate fileZero
  rw [show List.drop 524 ([] : List Nat) = [] from rfl, List.append_nil]
  rw [List.take_of_length_le (by simp [apZero_len])]
  rw [show (4096 : Nat) -
        (apZero ++ ([0, 0, 0, 0] ++ [0, 0, 0, 0] : List Nat)).length = 3572
      from by simp [apZero_len]]
  simp only [List.append_assoc, List.cons_append, List.nil_append]

theorem wtXCl : fileTruncate (writtenFile [] apXCl) HEADER_OFFSET_DATA =
    fileXCl := by
  rw [writtenFile_eq _ _ apXCl_len apXCl_digest,
      show HEADER_OFFSET_DATA = 4096 from rfl]
  unfold fileTruncate fileXCl
  rw [show List.drop 524 ([] : List Nat) = [] from rfl, List.append_nil]
  rw [List.take_of_length_le (by simp [apXCl_len])]
  rw [show (4096 : Nat) -
        (apXCl ++ ([0, 0, 0, 0] ++ [0, 0, 0, 0] : List Nat)).length = 3572
      from by simp [apXCl_len]]
  simp only [List.append_assoc, List.cons_append, List.nil_append]

theorem fileACl_len : fileACl.length = 4096 := by
  unfold fileACl
  simp only [List.length_append, List.length_replicate, List.length_cons,
    List.length_nil, apACl_len]

theorem fileXCl_len : fileXCl.length = 4096 := by
  unfold fileXCl
  simp only [List.length_append, List.length_replicate, List.length_cons,
    List.length_nil, apXCl_len]

theorem wtACl : fileTruncate (writtenFile fileA apACl) HEADER_OFFSET_DATA =
    fileACl := by
  rw [writtenFile_eq _ _ apACl_len apACl_digest,
      show HEADER_OFFSET_DATA = 4096 from rfl]
  unfold fileA
  rw [file_drop524 _ apA_len]
  exact fileTruncate_id _ fileACl_len

theorem wtXClSelf :
    fileTruncate (writtenFile fileXCl apXCl) HEADER_OFFSET_DATA = fileXCl := by
  rw [writtenFile_eq _ _ apXCl_len apXCl_digest,
      show HEADER_OFFSET_DATA = 4096 from rfl]
  unfold fileXCl
  rw [file_drop524 _ apXCl_len]
  exact fileTruncate_id _ fileXCl_len

/-! ### Replaying the operation trace against the literal states -/

theorem addCapEval1 :
    (setAssociatedPath
      ⟨[(0, [])], [0], [], [], List.replicate 516 0, 1⟩ 0 [] 0).1 =
      ⟨[(0, fileZero)], [0], [], [0], apZero, 1⟩ := by
  rw [setAssociatedPath_empty]
  show PoolState.mk
      [(0, fileTruncate (writtenFile []
        (encBody (List.replicate 516 0) [] 0)) HEADER_OFFSET_DATA)]
      [0] [] [0] (encBody (List.replicate 516 0) [] 0) 1 =
      ⟨[(0, fileZero)], [0], [], [0], apZero, 1⟩
  rw [enc_init, wtZero]

theorem addCapEval2 :
    (setAssociatedPath
      ⟨[(0, fileZero), (1, [])], [0, 1], [], [0], apZero, 2⟩ 1 [] 0).1 =
      lit0 := by
  rw [setAssociatedPath_empty]
  show PoolState.mk
      [(0, fileZero), (1, fileTruncate (writtenFile []
        (encBody apZero [] 0)) HEADER_OFFSET_DATA)]
      [0, 1] [] [0, 1] (encBody apZero [] 0) 2 = lit0
  unfold lit0
  rw [enc_zero, wtZero]

theorem step0 : addCapacity emptyPool 2 = (lit0, 2) := by
  calc addCapacity emptyPool 2
      = addCapacity ((setAssociatedPath
          ⟨[(0, [])], [0], [], [], List.replicate 516 0, 1⟩ 0 [] 0).1) 1 := rfl
    _ = addCapacity ⟨[(0, fileZero)], [0], [], [0], apZero, 1⟩ 1 := by
        rw [addCapEval1]
    _ = addCapacity ((setAssociatedPath
          ⟨[(0, fileZero), (1, [])], [0, 1], [], [0], apZero, 2⟩ 1 [] 0).1) 0 := rfl
    _ = addCapacity lit0 0 := by rw [addCapEval2]
    _ = (lit0, 2) := rfl

theorem fileX_split : fileX =
    pathXdb ++ (List.replicate 507 0 ++ 0 :: 0 :: 1 :: 6 ::
      (0 :: 0 :: 0 :: 0 :: (0 :: 0 :: 0 :: 0 :: List.replicate 3572 0))) := by
  unfold fileX apX
  simp only [List.append_assoc, List.cons_append, List.nil_append]

theorem fileXCl_split : fileXCl =
    pathXdb ++ (List.replicate 507 0 ++ 0 :: 0 :: 0 :: 0 ::
      (0 :: 0 :: 0 :: 0 :: (0 :: 0 :: 0 :: 0 :: List.replicate 3572 0))) := by
  unfold fileXCl apXCl
  simp only [List.append_assoc, List.cons_append, List.nil_append]

theorem step1 : xOpen lit0 pathXdb mainDbFlags = (lit1, none) := by
  have hap : lit0.apBody.length = 516 := apZero_len
  have h := setAssociatedPath_assoc lit0 0 pathXdb 262 hap (by decide) (by decide)
  have he : encBody lit0.apBody pathXdb 262 = apX := encX
  rw [he, show fileBytes lit0 0 = fileZero from rfl, wfX] at h
  calc xOpen lit0 pathXdb mainDbFlags
      = setAssociatedPath lit0 0 pathXdb 262 := rfl
    _ = (lit1, none) := h.trans rfl

theorem step2 : xOpen lit1 pathAdb mainDbFlags = (lit2, none) := by
  have hap : lit1.apBody.length = 516 := apX_len
  have h := setAssociatedPath_assoc lit1 1 pathAdb 262 hap (by decide) (by decide)
  have he : encBody lit1.apBody pathAdb 262 = apA := encA
  rw [he, show fileBytes lit1 1 = fileZero from rfl, wfA] at h
  calc xOpen lit1 pathAdb mainDbFlags
      = setAssociatedPath lit1 1 pathAdb 262 := rfl
    _ = (lit2, none) := h.trans rfl

theorem delEvalA :
    (setAssociatedPath
      ⟨[(0, fileX), (1, fileA)], [0, 1], [(pathXdb, 0)], [], apA, 2⟩
      1 [] 0).1 = lit3 := by
  rw [setAssociatedPath_empty]
  show PoolState.mk
      [(0, fileX), (1, fileTruncate (writtenFile fileA
        (encBody apA [] 0)) HEADER_OFFSET_DATA)]
      [0, 1] [(pathXdb, 0)] [1] (encBody apA [] 0) 2 = lit3
  unfold lit3
  rw [encACl, wtACl]

theorem step3 : deletePath lit2 pathAdb = (lit3, true) := by
  calc deletePath lit2 pathAdb
      = ((setAssociatedPath
          ⟨[(0, fileX), (1, fileA)], [0, 1], [(pathXdb, 0)], [], apA, 2⟩
          1 [] 0).1, true) := rfl
    _ = (lit3, true) := by rw [delEvalA]

theorem step4 : xOpen lit3 pathX mainDbFlags = (lit4, none) := by
  have hap : lit3.apBody.length = 516 := apACl_len
  have h := setAssociatedPath_assoc lit3 1 pathX 262 hap (by decide) (by decide)
  have he : encBody lit3.apBody pathX 262 = apX := encX2
  rw [he, show fileBytes lit3 1 = fileACl from rfl, wfX2] at h
  calc xOpen lit3 pathX mainDbFlags
      = setAssociatedPath lit3 1 pathX 262 := rfl
    _ = (lit4, none) := h.trans rfl

theorem addCapEval3 :
    (setAssociatedPath
      ⟨[(0, fileX), (1, fileX), (2, [])], [0, 1, 2],
       [(pathXdb, 0), (pathX, 1)], [], apX, 3⟩ 2 [] 0).1 = lit4b := by
  rw [setAssociatedPath_empty]
  show PoolState.mk
      [(0, fileX), (1, fileX), (2, fileTruncate (writtenFile []
        (encBody apX [] 0)) HEADER_OFFSET_DATA)]
      [0, 1, 2] [(pathXdb, 0), (pathX, 1)] [2] (encBody apX [] 0) 3 = lit4b
  unfold lit4b
  rw [encXCl, wtXCl]

theorem step4b : addCapacity lit4 1 = (lit4b, 3) := by
  calc addCapacity lit4 1
      = addCapacity ((setAssociatedPath
          ⟨[(0, fileX), (1, fileX), (2, [])], [0, 1, 2],
           [(pathXdb, 0), (pathX, 1)], [], apX, 3⟩ 2 [] 0).1) 0 := rfl
    _ = addCapacity lit4b 0 := by rw [addCapEval3]
    _ = (lit4b, 3) := rfl

theorem acquireGo_false_cons (st st' : PoolState) (name : Nat)
    (rest P : List Nat)
    (h : getAssociatedPath
      { st with mapSAHToName := st.mapSAHToName ++ [name] } name = (st', P))
    (hP : P.isEmpty = false) :
    acquireGo false st (name :: rest) =
      acquireGo false
        { st' with mapFilenameToSAH := jsSet st'.mapFilenameToSAH P name }
        rest := by
  have e1 : acquireGo false st (name :: rest) =
      acquireGo false
        (if (getAssociatedPath
              { st with mapSAHToName := st.mapSAHToName ++ [name] }
              name).2.isEmpty
         then { (getAssociatedPath
                  { st with mapSAHToName := st.mapSAHToName ++ [name] }
                  name).1 with
                availableSAH := jsSetAdd
                  (getAssociatedPath
                    { st with mapSAHToName := st.mapSAHToName ++ [name] }
                    name).1.availableSAH name }
         else { (getAssociatedPath
                  { st with mapSAHToName := st.mapSAHToName ++ [name] }
                  name).1 with
                mapFilenameToSAH := jsSet
                  (getAssociatedPath
                    { st with mapSAHToName := st.mapSAHToName ++ [name] }
                    name).1.mapFilenameToSAH
                  (getAssociatedPath
                    { st with mapSAHToName := st.mapSAHToName ++ [name] }
                    name).2 name })
        rest := rfl
  rw [e1, h]
  have e2 : ((st', P).2).isEmpty = false := hP
  rw [e2, if_neg Bool.false_ne_true]

theorem acquireGo_false_skip (st st' : PoolState) (name : Nat)
    (rest : List Nat)
    (h : getAssociatedPath
      { st with mapSAHToName := st.mapSAHToName ++ [name] } name = (st', [])) :
    acquireGo false st (name :: rest) =
      acquireGo false
        { st' with availableSAH := jsSetAdd st'.availableSAH name } rest := by
  have e1 : acquireGo false st (name :: rest) =
      acquireGo false
        (if (getAssociatedPath
              { st with mapSAHToName := st.mapSAHToName ++ [name] }
              name).2.isEmpty
         then { (getAssociatedPath
                  { st with mapSAHToName := st.mapSAHToName ++ [name] }
                  name).1 with
                availableSAH := jsSetAdd
                  (getAssociatedPath
                    { st with mapSAHToName := st.mapSAHToName ++ [name] }
                    name).1.availableSAH name }
         else { (getAssociatedPath
                  { st with mapSAHToName := st.mapSAHToName ++ [name] }
                  name).1 with
                mapFilenameToSAH := jsSet
                  (getAssociatedPath
                    { st with mapSAHToName := st.mapSAHToName ++ [name] }
                    name).1.mapFilenameToSAH
                  (getAssociatedPath
                    { st with mapSAHToName := st.mapSAHToName ++ [name] }
                    name).2 name })
        rest := rfl
  rw [e1, h]
  have e2 : ((st', ([] : List Nat)).2).isEmpty = true := rfl
  rw [e2, if_pos rfl]

theorem gapX0 : getAssociatedPath
    ⟨[(0, fileX), (1, fileX)], [0], [], [], apX, 2⟩ 0 =
    (⟨[(0, fileX), (1, fileX)], [0], [], [], apX, 2⟩, pathXdb) := by
  have hf : fileBytes ⟨[(0, fileX), (1, fileX)], [0], [], [], apX, 2⟩ 0 =
      pathXdb ++ (List.replicate 507 0 ++ 0 :: 0 :: 1 :: 6 ::
        (0 :: 0 :: 0 :: 0 :: (0 :: 0 :: 0 :: 0 :: List.replicate 3572 0))) :=
    fileX_split
  exact (getAssociatedPath_valid _ 0 pathXdb 507 0 0 1 6
    (List.replicate 3572 0) hf apX_len (by decide) (by decide) (by decide)
    (by decide) (by decide) (by decide)).trans rfl

theorem gapX1 : getAssociatedPath
    ⟨[(0, fileX), (1, fileX)], [0, 1], [(pathXdb, 0)], [], apX, 2⟩ 1 =
    (⟨[(0, fileX), (1, fileX)], [0, 1], [(pathXdb, 0)], [], apX, 2⟩,
      pathXdb) := by
  have hf : fileBytes
      ⟨[(0, fileX), (1, fileX)], [0, 1], [(pathXdb, 0)], [], apX, 2⟩ 1 =
      pathXdb ++ (List.replicate 507 0 ++ 0 :: 0 :: 1 :: 6 ::
        (0 :: 0 :: 0 :: 0 :: (0 :: 0 :: 0 :: 0 :: List.replicate 3572 0))) :=
    fileX_split
  exact (getAssociatedPath_valid _ 1 pathXdb 507 0 0 1 6
    (List.replicate 3572 0) hf apX_len (by decide) (by decide) (by decide)
    (by decide) (by decide) (by decide)).trans rfl

theorem step5 : reset lit4 false = lit5 := by
  have e0 : reset lit4 false =
      acquireGo false ⟨[(0, fileX), (1, fileX)], [], [], [], apX, 2⟩
        [0, 1] := rfl
  rw [e0]
  rw [acquireGo_false_cons ⟨[(0, fileX), (1, fileX)], [], [], [], apX, 2⟩
      ⟨[(0, fileX), (1, fileX)], [0], [], [], apX, 2⟩ 0 [1] pathXdb gapX0 rfl]
  show acquireGo false
      ⟨[(0, fileX), (1, fileX)], [0], [(pathXdb, 0)], [], apX, 2⟩ [1] = lit5
  rw [acquireGo_false_cons
      ⟨[(0, fileX), (1, fileX)], [0], [(pathXdb, 0)], [], apX, 2⟩
      ⟨[(0, fileX), (1, fileX)], [0, 1], [(pathXdb, 0)], [], apX, 2⟩
      1 [] pathXdb gapX1 rfl]
  rfl

theorem gapX0b : getAssociatedPath
    ⟨[(0, fileX), (1, fileX), (2, fileXCl)], [0], [], [], apXCl, 3⟩ 0 =
    (⟨[(0, fileX), (1, fileX), (2, fileXCl)], [0], [], [], apX, 3⟩,
      pathXdb) := by
  have hf : fileBytes
      ⟨[(0, fileX), (1, fileX), (2, fileXCl)], [0], [], [], apXCl, 3⟩ 0 =
      pathXdb ++ (List.replicate 507 0 ++ 0 :: 0 :: 1 :: 6 ::
        (0 :: 0 :: 0 :: 0 :: (0 :: 0 :: 0 :: 0 :: List.replicate 3572 0))) :=
    fileX_split
  exact (getAssociatedPath_valid _ 0 pathXdb 507 0 0 1 6
    (List.replicate 3572 0) hf apXCl_len (by decide) (by decide) (by decide)
    (by decide) (by decide) (by decide)).trans rfl

theorem gapX1b : getAssociatedPath
    ⟨[(0, fileX), (1, fileX), (2, fileXCl)], [0, 1], [(pathXdb, 0)], [],
      apX, 3⟩ 1 =
    (⟨[(0, fileX), (1, fileX), (2, fileXCl)], [0, 1], [(pathXdb, 0)], [],
      apX, 3⟩, pathXdb) := by
  have hf : fileBytes
      ⟨[(0, fileX), (1, fileX), (2, fileXCl)], [0, 1], [(pathXdb, 0)], [],
        apX, 3⟩ 1 =
      pathXdb ++ (List.replicate 507 0 ++ 0 :: 0 :: 1 :: 6 ::
        (0 :: 0 :: 0 :: 0 :: (0 :: 0 :: 0 :: 0 :: List.replicate 3572 0))) :=
    fileX_split
  exact (getAssociatedPath_valid _ 1 pathXdb 507 0 0 1 6
    (List.replicate 3572 0) hf apX_len (by decide) (by decide) (by decide)
    (by decide) (by decide) (by decide)).trans rfl

theorem gapCl2Eval :
    (setAssociatedPath
      ⟨[(0, fileX), (1, fileX), (2, fileXCl)], [0, 1, 2], [(pathXdb, 1)],
        [], apXCl, 3⟩ 2 [] 0).1 =
      ⟨[(0, fileX), (1, fileX), (2, fileXCl)], [0, 1, 2], [(pathXdb, 1)],
        [2], apXCl, 3⟩ := by
  rw [setAssociatedPath_empty]
  show PoolState.mk
      [(0, fileX), (1, fileX), (2, fileTruncate (writtenFile fileXCl
        (encBody apXCl [] 0)) HEADER_OFFSET_DATA)]
      [0, 1, 2] [(pathXdb, 1)] [2] (encBody apXCl [] 0) 3 =
      ⟨[(0, fileX), (1, fileX), (2, fileXCl)], [0, 1, 2], [(pathXdb, 1)],
        [2], apXCl, 3⟩
  rw [encXClSelf, wtXClSelf]

theorem gapCl2 : getAssociatedPath
    ⟨[(0, fileX), (1, fileX), (2, fileXCl)], [0, 1, 2], [(pathXdb, 1)],
      [], apX, 3⟩ 2 =
    (⟨[(0, fileX), (1, fileX), (2, fileXCl)], [0, 1, 2], [(pathXdb, 1)],
      [2], apXCl, 3⟩, []) := by
  have hf : fileBytes
      ⟨[(0, fileX), (1, fileX), (2, fileXCl)], [0, 1, 2], [(pathXdb, 1)],
        [], apX, 3⟩ 2 =
      pathXdb ++ (List.replicate 507 0 ++ 0 :: 0 :: 0 :: 0 ::
        (0 :: 0 :: 0 :: 0 :: (0 :: 0 :: 0 :: 0 :: List.replicate 3572 0))) :=
    fileXCl_split
  have h := getAssociatedPath_drop _ 2 pathXdb 507 0 0 0 0
    (0 :: 0 :: 0 :: 0 :: (0 :: 0 :: 0 :: 0 :: List.replicate 3572 0))
    hf apX_len (by decide) (by decide) (by decide) (by decide)
  rw [h]
  show ((setAssociatedPath
      ⟨[(0, fileX), (1, fileX), (2, fileXCl)], [0, 1, 2], [(pathXdb, 1)],
        [], apXCl, 3⟩ 2 [] 0).1, ([] : List Nat)) =
    (⟨[(0, fileX), (1, fileX), (2, fileXCl)], [0, 1, 2], [(pathXdb, 1)],
      [2], apXCl, 3⟩, [])
  rw [gapCl2Eval]

theorem step6 : reset lit4b false = lit6 := by
  have e0 : reset lit4b false =
      acquireGo false
        ⟨[(0, fileX), (1, fileX), (2, fileXCl)], [], [], [], apXCl, 3⟩
        [0, 1, 2] := rfl
  rw [e0]
  rw [acquireGo_false_cons
      ⟨[(0, fileX), (1, fileX), (2, fileXCl)], [], [], [], apXCl, 3⟩
      ⟨[(0, fileX), (1, fileX), (2, fileXCl)], [0], [], [], apX, 3⟩
      0 [1, 2] pathXdb gapX0b rfl]
  show acquireGo false
      ⟨[(0, fileX), (1, fileX), (2, fileXCl)], [0], [(pathXdb, 0)], [],
        apX, 3⟩ [1, 2] = lit6
  rw [acquireGo_false_cons
      ⟨[(0, fileX), (1, fileX), (2, fileXCl)], [0], [(pathXdb, 0)], [],
        apX, 3⟩
      ⟨[(0, fileX), (1, fileX), (2, fileXCl)], [0, 1], [(pathXdb, 0)], [],
        apX, 3⟩ 1 [2] pathXdb gapX1b rfl]
  show acquireGo false
      ⟨[(0, fileX), (1, fileX), (2, fileXCl)], [0, 1], [(pathXdb, 1)], [],
        apX, 3⟩ [2] = lit6
  rw [acquireGo_false_skip
      ⟨[(0, fileX), (1, fileX), (2, fileXCl)], [0, 1], [(pathXdb, 1)], [],
        apX, 3⟩
      ⟨[(0, fileX), (1, fileX), (2, fileXCl)], [0, 1, 2], [(pathXdb, 1)],
        [2], apXCl, 3⟩ 2 [] gapCl2]
  rfl

theorem traceEq0 : tracePool0 = lit0 := by
  unfold tracePool0
  rw [step0]

theorem traceEq1 : tracePool1 = lit1 := by
  unfold tracePool1
  rw [traceEq0, step1]

theorem traceEq2 : tracePool2 = lit2 := by
  unfold tracePool2
  rw [traceEq1, step2]

theorem traceEq3 : tracePool3 = lit3 := by
  unfold tracePool3
  rw [traceEq2, step3]

theorem traceEq4 : tracePool4 = lit4 := by
  unfold tracePool4
  rw [traceEq3, step4]

theorem traceEq5 : tracePool5 = lit5 := by
  unfold tracePool5
  rw [traceEq4, step5]

theorem traceEq6 : tracePool6 = lit6 := by
  unfold tracePool6
  rw [traceEq4, step4b, step6]

/-! ### General lemmas about the Map/Set and file primitives -/

theorem jsGet_set_self {α β : Type} [DecidableEq α] (l : List (α × β))
    (k : α) (v : β) : jsGet (jsSet l k v) k = some v := by
  induction l with
  | nil => simp [jsSet, jsGet]
  | cons p rest ih =>
    obtain ⟨k0, v0⟩ := p
    by_cases h : k0 = k
    · subst h
      simp [jsSet, jsGet]
    · simp only [jsSet, if_neg h, jsGet]
      exact ih

theorem jsGet_eq_none {α β : Type} [DecidableEq α] (l : List (α × β)) (k : α)
    (h : k ∉ l.map Prod.fst) : jsGet l k = none := by
  induction l with
  | nil => rfl
  | cons p rest ih =>
    obtain ⟨k0, v0⟩ := p
    simp only [List.map_cons, List.mem_cons] at h
    push_neg at h
    simp only [jsGet]
    rw [if_neg (Ne.symm h.1)]
    exact ih h.2

theorem jsGet_delete_self {α β : Type} [DecidableEq α] (l : List (α × β))
    (k : α) (h : (l.map Prod.fst).Nodup) : jsGet (jsDelete l k) k = none := by
  induction l with
  | nil => rfl
  | cons p rest ih =>
    obtain ⟨k0, v0⟩ := p
    simp only [List.map_cons, List.nodup_cons] at h
    by_cases hk : k0 = k
    · subst hk
      simp only [jsDelete, if_pos rfl]
      exact jsGet_eq_none rest k0 h.1
    · simp only [jsDelete, if_neg hk, jsGet]
      exact ih h.2

theorem fileTruncate_length (l : List Nat) (n : Nat) :
    (fileTruncate l n).length = n := by
  unfold fileTruncate
  simp only [List.length_append, List.length_take, List.length_replicate]
  omega

theorem fileWrite_zero (d src : List Nat) :
    fileWrite d 0 src = src ++ d.drop src.length := by
  simp [fileWrite]

theorem fileWrite_take_of_ge (d src : List Nat) (p n : Nat) (hn : n ≤ p)
    (hp : p ≤ d.length) : (fileWrite d p src).take n = d.take n := by
  unfold fileWrite
  rw [show p - d.length = 0 from by omega, List.replicate_zero, List.append_nil]
  rw [List.take_append_of_le_length
        (by simp only [List.length_append, List.length_take]; omega),
      List.take_append_of_le_length (by simp only [List.length_take]; omega),
      List.take_take, min_eq_left hn]

theorem fileWrite_length (d src : List Nat) (p : Nat) :
    (fileWrite d p src).length =
      p + src.length + (d.length - (p + src.length)) := by
  unfold fileWrite
  simp only [List.length_append, List.length_take, List.length_replicate,
    List.length_drop]
  omega

theorem encBody_empty_take (ap : List Nat) (hap : ap.length = 516) :
    (encBody ap [] 0).take 512 = ap.take 512 := by
  unfold encBody setU32BE
  simp only [List.length_nil, List.drop_zero, List.nil_append]
  rw [show HEADER_OFFSET_FLAGS = 512 from rfl]
  rw [List.take_append_of_le_length
        (by simp only [List.length_append, List.length_take]; omega),
      List.take_append_of_le_length (by simp only [List.length_take]; omega),
      List.take_take, min_self]

theorem encBody_empty_length (ap : List Nat) (hap : ap.length = 516) :
    (encBody ap [] 0).length = 516 := by
  unfold encBody setU32BE
  simp only [List.length_nil, List.drop_zero, List.nil_append,
    List.length_append, List.length_take, List.length_cons, List.length_nil,
    List.length_drop]
  rw [show HEADER_OFFSET_FLAGS = 512 from rfl]
  omega

theorem writtenFile_take512 (d body : List Nat) (hb : body.length = 516) :
    (writtenFile d body).take 512 = body.take 512 := by
  unfold writtenFile
  rw [show HEADER_OFFSET_DIGEST = 516 from rfl]
  have hlen : 516 ≤ (fileWrite d 0 body).length := by
    rw [fileWrite_zero]
    simp only [List.length_append]
    omega
  rw [fileWrite_take_of_ge _ _ 516 512 (by omega) hlen, fileWrite_zero,
      List.take_append_of_le_length (by omega)]

theorem fileTruncate_take (l : List Nat) (sz n : Nat) (hn : n ≤ sz)
    (hl : n ≤ l.length) : (fileTruncate l sz).take n = l.take n := by
  unfold fileTruncate
  rw [List.take_append_of_le_length (by simp only [List.length_take]; omega),
      List.take_take, min_eq_left hn]

theorem encBody_empty_eq (ap : List Nat) (hap : ap.length = 516) :
    encBody ap [] 0 = ap.take 512 ++ [0, 0, 0, 0] := by
  unfold encBody setU32BE
  simp only [List.length_nil, List.drop_zero, List.nil_append]
  rw [show HEADER_OFFSET_FLAGS = 512 from rfl,
      List.drop_eq_nil_of_le (by omega), List.append_nil]

theorem encBody_empty_bytes (ap : List Nat) (hap : ap.length = 516)
    (hb : ∀ b ∈ ap, b ≤ 255) : ∀ b ∈ encBody ap [] 0, b ≤ 255 := by
  rw [encBody_empty_eq ap hap]
  intro b hmem
  rcases List.mem_append.1 hmem with h | h
  · exact hb b (List.take_subset 512 ap h)
  · simp only [List.mem_cons, List.not_mem_nil, or_false] at h
    rcases h with rfl | rfl | rfl | rfl <;> omega

theorem encBody_empty_digest (ap : List Nat) (hap : ap.length = 516)
    (hb : ∀ b ∈ ap, b ≤ 255) : computeDigest (encBody ap [] 0) = (0, 0) :=
  computeDigest_eq_zero _ (encBody_empty_length ap hap)
    (encBody_empty_bytes ap hap hb)

theorem writtenFile_take_body (d body : List Nat) (hb : body.length = 516) :
    (writtenFile d body).take 516 = body := by
  unfold writtenFile
  rw [show HEADER_OFFSET_DIGEST = 516 from rfl]
  have hlen : 516 ≤ (fileWrite d 0 body).length := by
    rw [fileWrite_zero]
    simp only [List.length_append]
    omega
  rw [fileWrite_take_of_ge _ _ 516 516 (le_refl 516) hlen, fileWrite_zero,
      List.take_append_of_le_length (by omega),
      List.take_of_length_le (by omega)]

theorem deleted_file_shape (d ap : List Nat) (hap : ap.length = 516)
    (hb : ∀ b ∈ ap, b ≤ 255) :
    ∃ T, fileTruncate (writtenFile d (encBody ap [] 0))
        HEADER_OFFSET_DATA =
      encBody ap [] 0 ++ (0 :: 0 :: 0 :: 0 :: 0 :: 0 :: 0 :: 0 :: T) := by
  have hbl := encBody_empty_length ap hap
  have hdg := encBody_empty_digest ap hap hb
  refine ⟨(List.drop 524 d).take 3572 ++
    List.replicate (4096 - (encBody ap [] 0 ++
      0 :: 0 :: 0 :: 0 :: 0 :: 0 :: 0 :: 0 :: List.drop 524 d).length) 0, ?_⟩
  rw [writtenFile_eq _ _ hbl hdg]
  unfold fileTruncate
  rw [show HEADER_OFFSET_DATA = 4096 from rfl,
      List.take_append_eq_append_take, List.take_of_length_le (by omega),
      hbl, show (4096 : Nat) - 516 = 3580 from rfl]
  simp only [List.cons_append, List.nil_append]
  rw [show (0 :: 0 :: 0 :: 0 :: 0 :: 0 :: 0 :: 0 ::
        List.drop 524 d).take 3580 =
      0 :: 0 :: 0 :: 0 :: 0 :: 0 :: 0 :: 0 ::
        ((List.drop 524 d).take 3572) from rfl,
      List.append_assoc]
  simp only [List.cons_append]

theorem getAssociatedPath_cleared (st : PoolState) (sah : Nat)
    (ap T : List Nat) (hap : ap.length = 516) (hb : ∀ b ∈ ap, b ≤ 255)
    (hfile : fileBytes st sah =
      encBody ap [] 0 ++ (0 :: 0 :: 0 :: 0 :: 0 :: 0 :: 0 :: 0 :: T))
    (hbody : st.apBody = encBody ap [] 0) :
    (getAssociatedPath st sah).2 = [] := by
  have hbl := encBody_empty_length ap hap
  have hdg := encBody_empty_digest ap hap hb
  have hbe := encBody_empty_eq ap hap
  have hread : (fileRead (fileBytes st sah) 0 st.apBody).2 =
      encBody ap [] 0 := by
    rw [hfile, hbody]
    exact fileRead_full _ _ _ hbl hbl
  have hflags : getU32BE (encBody ap [] 0) HEADER_OFFSET_FLAGS = 0 := by
    rw [hbe, show HEADER_OFFSET_FLAGS = 512 from rfl]
    have hA : (ap.take 512).length = 512 := by
      rw [List.length_take]
      omega
    have h := getU32BE_at_append (ap.take 512) 0 0 0 0 [] hA
    simpa using h
  simp only [getAssociatedPath]
  rw [hread, hflags]
  by_cases hh : (encBody ap [] 0).headD 0 ≠ 0
  · rw [if_pos ⟨hh, Or.inr (by decide)⟩]
  · rw [if_neg (fun hc => hh hc.1)]
    rw [hfile, show HEADER_OFFSET_DIGEST = 516 from rfl,
        fileRead_digest _ _ hbl]
    rw [show getU32LE (List.replicate 8 0) 0 = 0 from rfl,
        show getU32LE (List.replicate 8 0) 4 = 0 from rfl, hdg]
    rw [if_pos rfl]
    push_neg at hh
    have hfz : findIndexZero (encBody ap [] 0) = some 0 := by
      cases hE : encBody ap [] 0 with
      | nil =>
        rw [hE] at hbl
        simp at hbl
      | cons b0 bs =>
        rw [hE] at hh
        simp only [List.headD_cons] at hh
        subst hh
        rfl
    rw [hfz]

/-! ### Claim C6: what `deletePath` actually does to the slot -/

/-- C6 (amended): unassociating a mapped path moves its slot back to the
available set, removes the mapping, and truncates the backing file to the
data offset (zero payload); the header's flags word (bytes 512-515) is
zeroed and the slot reads back as unassociated (`getAssociatedPath`
returns the empty path), but the path region is NOT cleared: the file
keeps the first 512 scratch-buffer bytes, i.e. whatever path bytes the
buffer held. -/
theorem deletePath_spec (st : PoolState) (path : List Nat) (sah : Nat)
    (hmap : jsGet st.mapFilenameToSAH path = some sah)
    (hap : st.apBody.length = 516)
    (hbytes : ∀ b ∈ st.apBody, b ≤ 255)
    (hnd : (st.mapFilenameToSAH.map Prod.fst).Nodup) :
    (deletePath st path).2 = true ∧
    (deletePath st path).1.availableSAH = jsSetAdd st.availableSAH sah ∧
    jsGet (deletePath st path).1.mapFilenameToSAH path = none ∧
    (fileBytes (deletePath st path).1 sah).length = HEADER_OFFSET_DATA ∧
    (fileBytes (deletePath st path).1 sah).take 512 = st.apBody.take 512 ∧
    (fileBytes (deletePath st path).1 sah).take 516 =
      st.apBody.take 512 ++ [0, 0, 0, 0] ∧
    (getAssociatedPath (deletePath st path).1 sah).2 = [] := by
  have e1 : deletePath st path =
      ((setAssociatedPath
        { st with mapFilenameToSAH := jsDelete st.mapFilenameToSAH path }
        sah [] 0).1, true) := by
    unfold deletePath
    rw [hmap]
  have hfb : fileBytes (deletePath st path).1 sah =
      fileTruncate
        (writtenFile (fileBytes st sah) (encBody st.apBody [] 0))
        HEADER_OFFSET_DATA := by
    rw [e1, setAssociatedPath_empty]
    show (jsGet (jsSet st.dir sah
      (fileTruncate
        (writtenFile (fileBytes st sah) (encBody st.apBody [] 0))
        HEADER_OFFSET_DATA)) sah).getD [] = _
    rw [jsGet_set_self]
    rfl
  have hwlen : 516 ≤
      (writtenFile (fileBytes st sah) (encBody st.apBody [] 0)).length := by
    have h1 := encBody_empty_length st.apBody hap
    have h2 : ∀ a b : Nat, (le32 a ++ le32 b).length = 8 := fun a b => by
      simp [le32]
    unfold writtenFile
    rw [fileWrite_length, fileWrite_length, h1, h2,
        show HEADER_OFFSET_DIGEST = 516 from rfl]
    omega
  have hap' : (deletePath st path).1.apBody = encBody st.apBody [] 0 := by
    rw [e1, setAssociatedPath_empty]
  refine ⟨by rw [e1], ?_, ?_, ?_, ?_, ?_, ?_⟩
  · rw [e1, setAssociatedPath_empty]
  · rw [e1, setAssociatedPath_empty]
    show jsGet (jsDelete st.mapFilenameToSAH path) path = none
    exact jsGet_delete_self _ _ hnd
  · rw [hfb, fileTruncate_length]
  · rw [hfb,
        fileTruncate_take _ _ 512 (by decide) (by omega),
        writtenFile_take512 _ _ (encBody_empty_length st.apBody hap),
        encBody_empty_take st.apBody hap]
  · rw [hfb,
        fileTruncate_take _ _ 516 (by decide) hwlen,
        writtenFile_take_body _ _ (encBody_empty_length st.apBody hap),
        encBody_empty_eq st.apBody hap]
  · obtain ⟨T, hT⟩ :=
      deleted_file_shape (fileBytes st sah) st.apBody hap hbytes
    exact getAssociatedPath_cleared (deletePath st path).1 sah st.apBody T
      hap hbytes (hfb.trans hT) hap'

/-- C6 (counterexample to the original wording): on the reachable trace,
deleting "/a.db" marks slot 1 available and truncates its payload, yet the
on-disk header still begins with the path bytes of "/a.db" — the path
region is not cleared. -/
theorem deletePath_keeps_stale_path :
    deletePath tracePool2 pathAdb = (tracePool3, true) ∧
    1 ∈ tracePool3.availableSAH ∧
    (fileBytes tracePool3 1).take 5 = pathAdb ∧
    pathAdb ≠ List.replicate 5 0 := by
  refine ⟨?_, ?_, ?_, by decide⟩
  · rw [traceEq2, traceEq3]
    exact step3
  · rw [traceEq3]
    decide
  · rw [traceEq3]
    rfl

/-- Witness for `deletePath_spec` at the concrete pool `wPool`. -/
theorem deletePath_spec_witness :
    jsGet wPool.mapFilenameToSAH pathAdb = some 0 ∧
    wPool.apBody.length = 516 ∧
    (∀ b ∈ wPool.apBody, b ≤ 255) ∧
    (wPool.mapFilenameToSAH.map Prod.fst).Nodup ∧
    ((deletePath wPool pathAdb).2 = true ∧
     (deletePath wPool pathAdb).1.availableSAH =
       jsSetAdd wPool.availableSAH 0 ∧
     jsGet (deletePath wPool pathAdb).1.mapFilenameToSAH pathAdb = none ∧
     (fileBytes (deletePath wPool pathAdb).1 0).length = HEADER_OFFSET_DATA ∧
     (fileBytes (deletePath wPool pathAdb).1 0).take 512 =
       wPool.apBody.take 512 ∧
     (fileBytes (deletePath wPool pathAdb).1 0).take 516 =
       wPool.apBody.take 512 ++ [0, 0, 0, 0] ∧
     (getAssociatedPath (deletePath wPool pathAdb).1 0).2 = []) :=
  ⟨by decide, by decide, by decide, by decide,
   deletePath_spec wPool pathAdb 0 (by decide) (by decide) (by decide)
     (by decide)⟩

/-! ### Claim C2: slot assignment fails iff no slot is available -/

/-- C2: on a well-formed pool, opening an unmapped path with the create
flag tosses the pool-full error exactly when the available set is empty
(however many slots are used); with an available slot it succeeds, writes
the header into that slot's file, maps the path to the first available
SAH, and removes that SAH from the available set. -/
theorem xOpen_poolExhausted_iff (st : PoolState) (path : List Nat)
    (flags : Nat) (hwf : PoolWF st) (hpath : validPath path)
    (hcreate : flags &&& SQLITE_OPEN_CREATE ≠ 0)
    (hunmapped : jsGet st.mapFilenameToSAH path = none) :
    ((xOpen st path flags).2 = some Err.PoolFull ↔ st.availableSAH = []) ∧
    ∀ sah rest, st.availableSAH = sah :: rest →
      xOpen st path flags =
        ({ st with apBody := encBody st.apBody path flags,
                   dir := jsSet st.dir sah
                     (writtenFile (fileBytes st sah)
                       (encBody st.apBody path flags)),
                   mapFilenameToSAH := jsSet st.mapFilenameToSAH path sah,
                   availableSAH := rest }, none) := by
  obtain ⟨hap, hdirnd, hhnd, hsub, hmnd, hand, hperm⟩ := hwf
  obtain ⟨hne, hlen, hbytes⟩ := hpath
  have hcap : getCapacity st = getFileCount st + st.availableSAH.length := by
    have h := hperm.length_eq
    simpa [getCapacity, getFileCount, List.length_append,
      List.length_map] using h
  have key : ∀ sah rest, st.availableSAH = sah :: rest →
      xOpen st path flags =
        ({ st with apBody := encBody st.apBody path flags,
                   dir := jsSet st.dir sah
                     (writtenFile (fileBytes st sah)
                       (encBody st.apBody path flags)),
                   mapFilenameToSAH := jsSet st.mapFilenameToSAH path sah,
                   availableSAH := rest }, none) := by
    intro sah rest havail
    have hlt : getFileCount st < getCapacity st := by
      rw [hcap, havail]
      simp only [List.length_cons]
      omega
    have hnext : nextAvailableSAH st = some sah := by
      unfold nextAvailableSAH
      rw [havail]
      rfl
    have e : xOpen st path flags = setAssociatedPath st sah path flags := by
      simp only [xOpen, hunmapped, if_pos hcreate, if_pos hlt, hnext]
    rw [e, setAssociatedPath_assoc st sah path flags hap hlen hne, havail,
        List.erase_cons_head]
  refine ⟨?_, key⟩
  by_cases hav : st.availableSAH = []
  · have hnlt : ¬ getFileCount st < getCapacity st := by
      rw [hcap, hav]
      simp
    have heq : xOpen st path flags = (st, some Err.PoolFull) := by
      simp only [xOpen, hunmapped, if_pos hcreate, if_neg hnlt]
    rw [heq, hav]
    simp
  · obtain ⟨sah, rest, havail⟩ := List.exists_cons_of_ne_nil hav
    rw [key sah rest havail, havail]
    simp

/-- Witness for `xOpen_poolExhausted_iff` at the concrete pool `wPool`,
whose single available slot is SAH 1. -/
theorem xOpen_poolExhausted_iff_witness :
    PoolWF wPool ∧ validPath pathXdb ∧
    mainDbFlags &&& SQLITE_OPEN_CREATE ≠ 0 ∧
    jsGet wPool.mapFilenameToSAH pathXdb = none ∧
    (((xOpen wPool pathXdb mainDbFlags).2 = some Err.PoolFull ↔
        wPool.availableSAH = []) ∧
     ∀ sah rest, wPool.availableSAH = sah :: rest →
       xOpen wPool pathXdb mainDbFlags =
         ({ wPool with apBody := encBody wPool.apBody pathXdb mainDbFlags,
                       dir := jsSet wPool.dir sah
                         (writtenFile (fileBytes wPool sah)
                           (encBody wPool.apBody pathXdb mainDbFlags)),
                       mapFilenameToSAH :=
                         jsSet wPool.mapFilenameToSAH pathXdb sah,
                       availableSAH := rest }, none)) :=
  ⟨by unfold PoolWF; decide, by unfold validPath; decide, by decide,
   by decide,
   xOpen_poolExhausted_iff wPool pathXdb mainDbFlags
     (by unfold PoolWF; decide) (by unfold validPath; decide)
     (by decide) (by decide)⟩

/-! ### Claim C7: `reduceCapacity` removes only available slots -/

theorem reduceGo_spec (avail : List Nat) : ∀ (st : PoolState) (n nRm : Nat),
    st.availableSAH = avail →
    st.mapSAHToName.Nodup →
    st.mapSAHToName.Perm (st.mapFilenameToSAH.map Prod.snd ++ avail) →
    nRm ≤ n →
    (reduceCapacityGo st avail n nRm).1.mapFilenameToSAH =
      st.mapFilenameToSAH ∧
    (reduceCapacityGo st avail n nRm).2 = nRm + min (n - nRm) avail.length ∧
    getCapacity (reduceCapacityGo st avail n nRm).1 =
      getCapacity st - min (n - nRm) avail.length ∧
    (reduceCapacityGo st avail n nRm).1.availableSAH =
      avail.drop (min (n - nRm) avail.length) ∧
    (reduceCapacityGo st avail n nRm).1.mapSAHToName.Perm
      (st.mapFilenameToSAH.map Prod.snd ++
        avail.drop (min (n - nRm) avail.length)) := by
  induction avail with
  | nil =>
    intro st n nRm hav hnd hperm hle
    refine ⟨rfl, by simp [reduceCapacityGo], by simp [reduceCapacityGo], ?_, ?_⟩
    · simpa [reduceCapacityGo] using hav
    · simpa [reduceCapacityGo] using hperm
  | cons ah rest ih =>
    intro st n nRm hav hnd hperm hle
    have hlencap : getCapacity st = getFileCount st + (rest.length + 1) := by
      have h := hperm.length_eq
      simpa [getCapacity, getFileCount, List.length_append, List.length_map,
        List.length_cons] using h
    by_cases h1 : nRm = n
    · have hstop : reduceCapacityGo st (ah :: rest) n nRm = (st, nRm) := by
        simp only [reduceCapacityGo, if_pos (Or.inl h1)]
      rw [hstop]
      subst h1
      simp only [Nat.sub_self, Nat.zero_min, Nat.add_zero, Nat.sub_zero,
        List.drop_zero]
      exact ⟨trivial, trivial, trivial, hav, hperm⟩
    · by_cases h2 : getFileCount st = getCapacity st
      · exfalso
        rw [hlencap] at h2
        omega
      · have hred : reduceCapacityGo st (ah :: rest) n nRm =
            reduceCapacityGo
              { st with dir := jsDelete st.dir ah,
                        mapSAHToName := st.mapSAHToName.erase ah,
                        availableSAH := st.availableSAH.erase ah }
              rest n (nRm + 1) := by
          simp only [reduceCapacityGo,
            if_neg (show ¬(nRm = n ∨ getFileCount st = getCapacity st) from by
              push_neg
              exact ⟨h1, h2⟩)]
        have hah_used : ah ∉ st.mapFilenameToSAH.map Prod.snd := by
          have hnd2 : (st.mapFilenameToSAH.map Prod.snd ++
              (ah :: rest)).Nodup := hperm.nodup hnd
          have hd := List.disjoint_of_nodup_append hnd2
          exact fun hmem => hd hmem (List.mem_cons_self ah rest)
        have hmem_handles : ah ∈ st.mapSAHToName :=
          hperm.mem_iff.mpr
            (List.mem_append_right _ (List.mem_cons_self ah rest))
        have hav1 : st.availableSAH.erase ah = rest := by
          rw [hav, List.erase_cons_head]
        have hnd1 : (st.mapSAHToName.erase ah).Nodup := hnd.erase ah
        have hperm1 : (st.mapSAHToName.erase ah).Perm
            (st.mapFilenameToSAH.map Prod.snd ++ rest) := by
          have h := hperm.erase ah
          rwa [List.erase_append_right _ hah_used,
            List.erase_cons_head] at h
        have IH := ih
          { st with dir := jsDelete st.dir ah,
                    mapSAHToName := st.mapSAHToName.erase ah,
                    availableSAH := st.availableSAH.erase ah }
          n (nRm + 1) hav1 hnd1 hperm1 (by omega)
        obtain ⟨ihmap, ihcount, ihcap, ihavail, ihperm⟩ := IH
        rw [hred]
        have hmineq : min (n - nRm) (ah :: rest).length =
            min (n - (nRm + 1)) rest.length + 1 := by
          simp only [List.length_cons]
          omega
        have hcap1 : getCapacity
            { st with dir := jsDelete st.dir ah,
                      mapSAHToName := st.mapSAHToName.erase ah,
                      availableSAH := st.availableSAH.erase ah } =
            getCapacity st - 1 := by
          show (st.mapSAHToName.erase ah).length = st.mapSAHToName.length - 1
          exact List.length_erase_of_mem hmem_handles
        refine ⟨ihmap, ?_, ?_, ?_, ?_⟩
        · rw [ihcount, hmineq]
          omega
        · rw [ihcap, hcap1, hmineq]
          omega
        · rw [ihavail, hmineq, List.drop_succ_cons]
        · rw [hmineq, List.drop_succ_cons]
          exact ihperm

/-- C7: on a well-formed pool, `reduceCapacity(n)` leaves the path map
untouched (so no used slot is removed), returns exactly
`min n |availableSAH|` — in particular at most `min` of `n` and the
available count at call time — drops the capacity by that number, removes
exactly the first that-many available slots, and every used SAH is still
among the pool's handles afterwards. -/
theorem reduceCapacity_spec (st : PoolState) (n : Nat) (hwf : PoolWF st) :
    (reduceCapacity st n).1.mapFilenameToSAH = st.mapFilenameToSAH ∧
    (reduceCapacity st n).2 = min n st.availableSAH.length ∧
    getCapacity (reduceCapacity st n).1 =
      getCapacity st - min n st.availableSAH.length ∧
    (reduceCapacity st n).1.availableSAH =
      st.availableSAH.drop (min n st.availableSAH.length) ∧
    ∀ s ∈ st.mapFilenameToSAH.map Prod.snd,
      s ∈ (reduceCapacity st n).1.mapSAHToName := by
  obtain ⟨hap, hdirnd, hhnd, hsub, hmnd, hand, hperm⟩ := hwf
  have h := reduceGo_spec st.availableSAH st n 0 rfl hhnd hperm
    (Nat.zero_le n)
  obtain ⟨h1, h2, h3, h4, h5⟩ := h
  rw [Nat.sub_zero] at h2 h3 h4 h5
  rw [Nat.zero_add] at h2
  unfold reduceCapacity
  refine ⟨h1, h2, h3, h4, ?_⟩
  intro s hs
  exact h5.mem_iff.mpr (List.mem_append_left _ hs)

/-- Witness for `reduceCapacity_spec`: asking `wPool` (capacity 2, one
available slot) to shed 5 slots. -/
theorem reduceCapacity_spec_witness :
    PoolWF wPool ∧
    ((reduceCapacity wPool 5).1.mapFilenameToSAH =
       wPool.mapFilenameToSAH ∧
     (reduceCapacity wPool 5).2 = min 5 wPool.availableSAH.length ∧
     getCapacity (reduceCapacity wPool 5).1 =
       getCapacity wPool - min 5 wPool.availableSAH.length ∧
     (reduceCapacity wPool 5).1.availableSAH =
       wPool.availableSAH.drop (min 5 wPool.availableSAH.length) ∧
     ∀ s ∈ wPool.mapFilenameToSAH.map Prod.snd,
       s ∈ (reduceCapacity wPool 5).1.mapSAHToName) :=
  ⟨by unfold PoolWF; decide,
   reduceCapacity_spec wPool 5 (by unfold PoolWF; decide)⟩

/-! ### Claim C8: `importDb` input validation -/

/-- C8: `importDb` rejects byte arrays that are shorter than 512 bytes,
not 512-aligned, or missing the SQLite magic, returning the matching
error with the pool state unchanged — no slot, mapping or file write. -/
theorem importDb_rejects (st : PoolState) (name bytes : List Nat)
    (h : bytes.length < 512 ∨ bytes.length % 512 ≠ 0 ∨
      bytes.take 15 ≠ sqliteMagic) :
    (importDb st name bytes).1 = st ∧
    ((importDb st name bytes).2 = some Err.ImportBadSize ∨
     (importDb st name bytes).2 = some Err.ImportBadMagic) := by
  by_cases h1 : bytes.length < 512 ∨ bytes.length % 512 ≠ 0
  · have e : importDb st name bytes = (st, some Err.ImportBadSize) := by
      simp only [importDb, if_pos h1]
    rw [e]
    exact ⟨rfl, Or.inl rfl⟩
  · have h2 : bytes.take 15 ≠ sqliteMagic := by tauto
    have e : importDb st name bytes = (st, some Err.ImportBadMagic) := by
      simp only [importDb, if_neg h1, if_pos h2]
    rw [e]
    exact ⟨rfl, Or.inr rfl⟩

/-- Witness for `importDb_rejects`: a three-byte array. -/
theorem importDb_rejects_witness :
    (([1, 2, 3] : List Nat).length < 512 ∨
     ([1, 2, 3] : List Nat).length % 512 ≠ 0 ∨
     ([1, 2, 3] : List Nat).take 15 ≠ sqliteMagic) ∧
    ((importDb wPool pathXdb [1, 2, 3]).1 = wPool ∧
     ((importDb wPool pathXdb [1, 2, 3]).2 = some Err.ImportBadSize ∨
      (importDb wPool pathXdb [1, 2, 3]).2 = some Err.ImportBadMagic)) :=
  ⟨by decide, importDb_rejects wPool pathXdb [1, 2, 3] (by decide)⟩

/-! ### Claim C9: short reads zero-fill and report the distinct code -/

/-- C9: reading `dest.length` bytes at `offset` in the payload returns the
available bytes with the remainder of the destination zero-filled and the
distinct `SQLITE_IOERR_SHORT_READ` code (not the generic `SQLITE_IOERR`)
when fewer bytes are available, and the requested bytes with `SQLITE_OK`
when enough are. -/
theorem xRead_spec (data dest : List Nat) (offset : Nat) :
    (data.length - (HEADER_OFFSET_DATA + offset) < dest.length →
      xRead data dest offset =
        ((data.drop (HEADER_OFFSET_DATA + offset)).take
            (data.length - (HEADER_OFFSET_DATA + offset)) ++
          List.replicate
            (dest.length - (data.length - (HEADER_OFFSET_DATA + offset)))
            0,
         SQLITE_IOERR_SHORT_READ)) ∧
    (dest.length ≤ data.length - (HEADER_OFFSET_DATA + offset) →
      xRead data dest offset =
        ((data.drop (HEADER_OFFSET_DATA + offset)).take dest.length,
         SQLITE_OK)) ∧
    SQLITE_IOERR_SHORT_READ ≠ SQLITE_IOERR := by
  refine ⟨?_, ?_, by decide⟩
  · intro h
    have hcnt : min dest.length
        (data.length - (HEADER_OFFSET_DATA + offset)) =
        data.length - (HEADER_OFFSET_DATA + offset) := by omega
    simp only [xRead, fileRead]
    rw [hcnt, if_pos h]
    rw [List.take_append_of_le_length
          (by simp only [List.length_take, List.length_drop]; omega),
        List.take_take, min_self]
  · intro h
    have hcnt : min dest.length
        (data.length - (HEADER_OFFSET_DATA + offset)) =
        dest.length := by omega
    simp only [xRead, fileRead]
    rw [hcnt, if_neg (lt_irrefl _), List.drop_length, List.append_nil]

/-- Witness for `xRead_spec`: a 3-byte backing file is far short of a
2-byte read at payload offset 0, and the short branch fires. -/
theorem xRead_spec_witness :
    wFileSmall.length - (HEADER_OFFSET_DATA + 0) < 2 ∧
    xRead wFileSmall [7, 7] 0 =
      ((wFileSmall.drop (HEADER_OFFSET_DATA + 0)).take
          (wFileSmall.length - (HEADER_OFFSET_DATA + 0)) ++
        List.replicate
          (2 - (wFileSmall.length - (HEADER_OFFSET_DATA + 0))) 0,
       SQLITE_IOERR_SHORT_READ) :=
  ⟨by decide, (xRead_spec wFileSmall [7, 7] 0).1 (by decide)⟩

/-! ### Claim C10: `exportFile` payload extraction -/

/-- C10: for a mapped name, `exportFile` returns exactly the backing
file's bytes past the data offset — `max(size - 4096, 0)` bytes, so an
empty array (not a failure) when the backing file is shorter than the
data offset. -/
theorem exportFile_spec (st : PoolState) (name : List Nat) (sah : Nat)
    (hmap : jsGet st.mapFilenameToSAH name = some sah) :
    exportFile st name =
      some ((fileBytes st sah).drop HEADER_OFFSET_DATA) ∧
    ((fileBytes st sah).drop HEADER_OFFSET_DATA).length =
      (fileBytes st sah).length - HEADER_OFFSET_DATA := by
  refine ⟨?_, List.length_drop _ _⟩
  simp only [exportFile, hmap]
  by_cases h : 0 < (fileBytes st sah).length - HEADER_OFFSET_DATA
  · rw [if_pos h]
    simp only [fileRead]
    rw [show min (List.replicate
          ((fileBytes st sah).length - HEADER_OFFSET_DATA) 0).length
          ((fileBytes st sah).length - HEADER_OFFSET_DATA) =
        (fileBytes st sah).length - HEADER_OFFSET_DATA from by simp]
    rw [List.take_of_length_le (le_of_eq (List.length_drop _ _))]
    simp
  · rw [if_neg h]
    have h2 : (fileBytes st sah).length - HEADER_OFFSET_DATA = 0 := by
      omega
    rw [h2, show (fileBytes st sah).drop HEADER_OFFSET_DATA = [] from
      List.drop_eq_nil_of_le (by omega)]
    rfl

/-- Witness for `exportFile_spec`: `wPool` maps "/a.db" to slot 0, whose
3-byte backing file is shorter than the data offset, so the export is the
empty byte array. -/
theorem exportFile_spec_witness :
    jsGet wPool.mapFilenameToSAH pathAdb = some 0 ∧
    (exportFile wPool pathAdb =
       some ((fileBytes wPool 0).drop HEADER_OFFSET_DATA) ∧
     ((fileBytes wPool 0).drop HEADER_OFFSET_DATA).length =
       (fileBytes wPool 0).length - HEADER_OFFSET_DATA) :=
  ⟨by decide, exportFile_spec wPool pathAdb 0 (by decide)⟩

/-! ### Claims C1, C3, C4, C5: the stale-buffer and digest defects -/

theorem sapX2 : setAssociatedPath lit3 1 pathX 262 = (lit4, none) := by
  have hap : lit3.apBody.length = 516 := apACl_len
  have h := setAssociatedPath_assoc lit3 1 pathX 262 hap (by decide)
    (by decide)
  have he : encBody lit3.apBody pathX 262 = apX := encX2
  rw [he, show fileBytes lit3 1 = fileACl from rfl, wfX2] at h
  exact h.trans rfl

theorem gapLit4 : getAssociatedPath lit4 1 = (lit4, pathXdb) := by
  have hf : fileBytes lit4 1 =
      pathXdb ++ (List.replicate 507 0 ++ 0 :: 0 :: 1 :: 6 ::
        (0 :: 0 :: 0 :: 0 :: (0 :: 0 :: 0 :: 0 :: List.replicate 3572 0))) :=
    fileX_split
  exact (getAssociatedPath_valid _ 1 pathXdb 507 0 0 1 6
    (List.replicate 3572 0) hf apX_len (by decide) (by decide) (by decide)
    (by decide) (by decide) (by decide)).trans rfl

theorem c4File_split : c4File =
    pathAdbFlip ++ (List.replicate 507 0 ++ 0 :: 0 :: 1 :: 6 ::
      (0 :: 0 :: 0 :: 0 :: (0 :: 0 :: 0 :: 0 :: List.replicate 3572 0))) := by
  unfold c4File c4Flip
  simp only [List.append_assoc, List.cons_append, List.nil_append]

theorem gapC4 : getAssociatedPath c4State 0 =
    ({ c4State with
        apBody := pathAdbFlip ++ (List.replicate 507 0 ++ [0, 0, 1, 6]) },
     pathAdbFlip) := by
  have hf : fileBytes c4State 0 =
      pathAdbFlip ++ (List.replicate 507 0 ++ 0 :: 0 :: 1 :: 6 ::
        (0 :: 0 :: 0 :: 0 :: (0 :: 0 :: 0 :: 0 :: List.replicate 3572 0))) :=
    c4File_split
  exact getAssociatedPath_valid _ 0 pathAdbFlip 507 0 0 1 6
    (List.replicate 3572 0) hf (List.length_replicate 516 0) (by decide)
    (by decide) (by decide) (by decide) (by decide) (by decide)

theorem c4Corpus_digest : computeDigest c4Corpus = (0, 0) :=
  computeDigest_eq_zero _ (by decide) (by decide)

theorem c4Flip_digest : computeDigest c4Flip = (0, 0) :=
  computeDigest_eq_zero _ (by decide) (by decide)

/-- C1: refuted on a reachable state.  After addCapacity(2),
xOpen("/x.db"), xOpen("/a.db"), xDelete("/a.db"), xOpen("/x"),
reset(false), the header scan maps both backing files to the same path
(the stale-buffer headers coincide), `Map.set` collapses them, and the
pool ends with one used mapping, no available slot, and capacity 2:
|usedMap| + |availableSet| ≠ capacity. -/
theorem c1_invariant_violated :
    getFileCount tracePool5 + tracePool5.availableSAH.length = 1 ∧
    getCapacity tracePool5 = 2 := by
  rw [traceEq5]
  exact ⟨rfl, rfl⟩

/-- C3: refuted.  In the reachable state tracePool3 the scratch buffer
still holds "/a.db"; encoding the valid two-byte path "/x" overwrites
only two bytes, so the header decodes to "/x.db", not "/x": the
encode/decode roundtrip returns a different path. -/
theorem c3_roundtrip_fails :
    validPath pathX ∧
    setAssociatedPath tracePool3 1 pathX mainDbFlags =
      (tracePool4, none) ∧
    (getAssociatedPath tracePool4 1).2 = pathXdb ∧
    pathXdb ≠ pathX := by
  refine ⟨by unfold validPath; decide, ?_, ?_, by decide⟩
  · rw [traceEq3, traceEq4]
    exact sapX2
  · rw [traceEq4, gapLit4]

/-- C4: refuted.  The unmasked double arithmetic overflows to Infinity on
every 516-byte corpus and `>>> 0` maps Infinity to 0, so `computeDigest`
is constantly (0, 0): flipping a bit in the stored "/a.db" header leaves
the digest equal and `getAssociatedPath` accepts the flipped header as a
valid association for the corrupted path.  The digest the spec describes
(32-bit accumulators, arithmetic modulo 2^32) does distinguish the two
corpora. -/
theorem c4_bit_flip_undetected :
    computeDigest c4Corpus = (0, 0) ∧
    computeDigest c4Flip = (0, 0) ∧
    c4Corpus ≠ c4Flip ∧
    (getAssociatedPath c4State 0).2 = pathAdbFlip ∧
    specDigest c4Corpus ≠ specDigest c4Flip := by
  refine ⟨c4Corpus_digest, c4Flip_digest, by decide, ?_, by decide⟩
  rw [gapC4]

/-- C5: refuted.  Before the reset, the pool reached by the trace plus
addCapacity(1) maps "/x" to slot 1 (and "/x.db" to slot 0); after
reset(false) the capacity is preserved (3) but the "/x" association is
gone — the directory scan finds two files with the same stale header
path and collapses them, so a previously-used slot loses its mapping. -/
theorem c5_reset_drops_mapping :
    tracePool6 = reset (addCapacity tracePool4 1).1 false ∧
    getCapacity tracePool6 = 3 ∧
    jsGet (addCapacity tracePool4 1).1.mapFilenameToSAH pathX = some 1 ∧
    jsGet tracePool6.mapFilenameToSAH pathX = none := by
  refine ⟨rfl, ?_, ?_, ?_⟩
  · rw [traceEq6]
    rfl
  · rw [traceEq4, step4b]
    rfl
  · rw [traceEq6]
    rfl
